import Mathlib

/-!
# Knowledge-base bot (`src/bot.js`): navigation state machine

A shallow embedding of the single-file Telegram bot.  The bot keeps one
mutable map `userStates` (chat id to UI state) and one `statistics` record,
reacts to `/start` messages and to callback queries, and talks to the chat
platform through `sendMessage`, `editMessageText` and `answerCallbackQuery`.

Calls to the transport are recorded as a list of `Effect`s.  The promise
returned by the `sendMessage` inside `sendOrEditMessage` settles later; this
is the event `Event.sendResolved`.  A thrown `TypeError` is `Except.error`.

Modelling conventions.
* Knowledge-base entries are records: `sections`, `topics`, `subtopics` are
  arrays of objects, an absent `topics`/`subtopics`/`link` field is `none`.
* A JavaScript number is observed by this program only as an array subscript
  and, after the subscript has found an element, inside a template string.
  `JSNum` keeps exactly that much: `some n` for the non-negative integer `n`,
  `none` for every other value (`NaN`, `undefined`, negative, fractional).
* `parseInt` and `Number` are library functions; they are a parameter
  (`JSBuiltins`) constrained by `JSBuiltins.Canonical` where a claim needs it.
* `statistics.start_command_count` holds a non-negative integer stored in an
  IEEE-754 double; `jsAddOne` is `+= 1` on such a value.
-/

namespace BotRenovatio

/-! ## JavaScript values -/

/-- Thrown JavaScript exception.  The only one the handlers can raise is the
`TypeError` of reading a property of `undefined`. -/
inductive JSError
  | typeError
  deriving DecidableEq, Repr

deriving instance DecidableEq for Except

/-- Telegram chat identifier (negative for groups). -/
abbrev ChatId := Int

/-- A JavaScript number as this program observes it: `some n` is the
non-negative integer `n`, `none` is any value that selects no array element
(`NaN`, `undefined`, a negative or fractional number, an infinity). -/
abbrev JSNum := Option Nat

/-- The library functions `parseInt(s, 10)` and `Number(s)`, read through
`JSNum`. -/
structure JSBuiltins where
  parseInt10 : String → JSNum
  number : String → JSNum

/-- The part of the ECMAScript contract of `parseInt` and `Number` the bot
relies on: the decimal rendering of a safe integer (below `2 ^ 53`) is read
back as that integer. -/
def JSBuiltins.Canonical (js : JSBuiltins) : Prop :=
  ∀ n : Nat, n < 2 ^ 53 → js.parseInt10 (toString n) = some n ∧ js.number (toString n) = some n

/-- Value of a run of decimal digits, most significant first, continuing from
the accumulator; `none` at the first character that is not a digit. -/
def decimalValue : Nat → List Char → Option Nat
  | acc, [] => some acc
  | acc, c :: cs => if c.isDigit then decimalValue (acc * 10 + (c.toNat - 48)) cs else none

/-- Reading of a string made of decimal digits only; `none` on anything else.
On such strings (below `2 ^ 53`) both `parseInt(s, 10)` and `Number(s)` return
this value. -/
def readDecimal (s : String) : JSNum :=
  match s.data with
  | [] => none
  | cs => decimalValue 0 cs

/-- Reference builtins, exact on decimal-digit strings; used to run the model
on concrete inputs. -/
def decimalBuiltins : JSBuiltins where
  parseInt10 := readDecimal
  number := readDecimal

/-- Pieces of a character list cut at every occurrence of `sep`. -/
def splitChars (sep : Char) : List Char → List (List Char)
  | [] => [[]]
  | c :: cs =>
    if c = sep then [] :: splitChars sep cs
    else
      match splitChars sep cs with
      | [] => [[c]]
      | p :: ps => (c :: p) :: ps

/-- JavaScript `s.split(sep)` for a one-character separator. -/
def split (s : String) (sep : Char) : List String :=
  (splitChars sep s.data).map String.mk

/-- JavaScript `s.startsWith(pre)`. -/
def startsWith (s pre : String) : Bool :=
  pre.data.isPrefixOf s.data

/-- JavaScript `xs[i]` together with the index that found it: `none` is
`undefined`. -/
def elem? {α : Type} (xs : List α) (i : JSNum) : Option (Nat × α) :=
  match i with
  | none => none
  | some n =>
    match xs[n]? with
    | none => none
    | some x => some (n, x)

/-- JavaScript `x += 1` on a number holding a non-negative integer: exact below
`2 ^ 53`; from there the sum is rounded to the nearest double, ties to even. -/
def jsAddOne (x : Nat) : Nat :=
  if x < 2 ^ 53 then x + 1
  else if x < 2 ^ 54 ∧ x % 4 = 2 then x + 2
  else x

/-! ## Knowledge base (`knowledge_base.json`) -/

/-- Third level of the tree. -/
structure Subtopic where
  title : String
  link : Option String
  deriving DecidableEq, Repr

/-- Second level of the tree. -/
structure Topic where
  title : String
  subtopics : Option (List Subtopic)
  deriving DecidableEq, Repr

/-- First level of the tree. -/
structure Section where
  name : String
  topics : Option (List Topic)
  deriving DecidableEq, Repr

/-- The loaded knowledge base; `sections` is checked to be an array at load
time, and is `[]` when loading failed. -/
structure KnowledgeBase where
  sections : List Section
  deriving DecidableEq, Repr

/-- Largest length of a JavaScript array. -/
def maxArrayLength : Nat := 2 ^ 32 - 1

/-- Every array of the knowledge base respects the JavaScript array length
limit. -/
def KnowledgeBase.withinArrayLimit (kb : KnowledgeBase) : Bool :=
  decide (kb.sections.length ≤ maxArrayLength) &&
  kb.sections.all fun sec =>
    match sec.topics with
    | none => true
    | some topics =>
      decide (topics.length ≤ maxArrayLength) &&
      topics.all fun topic =>
        match topic.subtopics with
        | none => true
        | some subtopics => decide (subtopics.length ≤ maxArrayLength)

/-! ## Transport payloads -/

/-- One inline keyboard button. -/
structure InlineKeyboardButton where
  text : String
  callback_data : Option String
  url : Option String
  deriving DecidableEq, Repr

/-- The `reply_markup` object. -/
structure ReplyMarkup where
  inline_keyboard : List (List InlineKeyboardButton)
  deriving DecidableEq, Repr

/-- The `options` argument of `sendMessage`; `{}` has both fields absent. -/
structure Options where
  parse_mode : Option String
  reply_markup : Option ReplyMarkup
  deriving DecidableEq, Repr

/-- The empty options object `{}`. -/
def Options.empty : Options := { parse_mode := none, reply_markup := none }

/-- Options carrying only an inline keyboard. -/
def Options.keyboard (rows : List (List InlineKeyboardButton)) : Options :=
  { parse_mode := none, reply_markup := some { inline_keyboard := rows } }

/-- The statistics record (`statistics.json`). -/
structure Statistics where
  start_command_count : Nat
  article_views : List (String × Nat)
  deriving DecidableEq, Repr

/-- A call made to the outside world.  `recordsId` on `sendMessage` tells
whether the call is the one of `sendOrEditMessage`, whose promise stores the
id of the delivered message. -/
inductive Effect
  | sendMessage (chatId : ChatId) (text : String) (options : Options) (recordsId : Bool)
  | editMessageText (text : String) (chat_id : ChatId) (message_id : Int)
      (reply_markup : Option ReplyMarkup)
  | answerCallbackQuery (id : String) (text : String) (show_alert : Bool)
  | writeStatistics (statistics : Statistics)
  deriving DecidableEq, Repr

/-- Inline keyboard carried by a call, `[]` when it carries none. -/
def Effect.keyboard : Effect → List (List InlineKeyboardButton)
  | .sendMessage _ _ options _ =>
    match options.reply_markup with
    | some m => m.inline_keyboard
    | none => []
  | .editMessageText _ _ _ reply_markup =>
    match reply_markup with
    | some m => m.inline_keyboard
    | none => []
  | _ => []

/-- The call is a `sendMessage` to the given chat. -/
def Effect.isSendTo (c : ChatId) : Effect → Bool
  | .sendMessage chatId _ _ _ => decide (chatId = c)
  | _ => false

/-- The call is an `editMessageText` in the given chat. -/
def Effect.isEditIn (c : ChatId) : Effect → Bool
  | .editMessageText _ chat_id _ _ => decide (chat_id = c)
  | _ => false

/-- The call is an `editMessageText` of message `m` in chat `c`. -/
def Effect.isEditOf (c : ChatId) (m : Int) : Effect → Bool
  | .editMessageText _ chat_id message_id _ => decide (chat_id = c) && decide (message_id = m)
  | _ => false

/-- The call is `answerCallbackQuery`. -/
def Effect.isAnswer : Effect → Bool
  | .answerCallbackQuery _ _ _ => true
  | _ => false

/-- The call writes the statistics file. -/
def Effect.isWrite : Effect → Bool
  | .writeStatistics _ => true
  | _ => false

/-! ## Per-chat UI state -/

/-- The object stored in `userStates[chatId]`. -/
structure UserState where
  level : String
  data : Option String
  messageId : Option Int
  deriving DecidableEq, Repr

/-- The map `userStates`; `none` is an absent key. -/
abbrev UserStates := ChatId → Option UserState

/-- The value of `userStates[chatId]?.messageId`. -/
def storedMessageId (userStates : UserStates) (chatId : ChatId) : Option Int :=
  (userStates chatId).bind UserState.messageId

/-- Function `sendOrEditMessage` (bot.js 203-219).  The stored id is truthy
when it is a number other than `0`. -/
def sendOrEditMessage (userStates : UserStates) (chatId : ChatId) (text : String)
    (options : Options) : List Effect :=
  match storedMessageId userStates chatId with
  | some messageId =>
    if messageId ≠ 0 then
      [Effect.editMessageText text chatId messageId options.reply_markup]
    else
      [Effect.sendMessage chatId text options true]
  | none => [Effect.sendMessage chatId text options true]

/-! ## Menus -/

/-- The Back button label. -/
def backLabel : String := "🔙 Назад"

/-- A button that carries callback data. -/
def callbackButton (text callback_data : String) : InlineKeyboardButton :=
  { text := text, callback_data := some callback_data, url := none }

/-- Rows of the main menu: `sections.map((section, sectionIndex) => ...)`. -/
def sectionButtons (sections : List Section) : List (List InlineKeyboardButton) :=
  sections.mapIdx fun sectionIndex sec =>
    [callbackButton sec.name ("section_" ++ toString sectionIndex)]

/-- Rows of a topics menu: `section.topics.map((topic, topicIndex) => ...)`. -/
def topicButtons (sectionIndex : Nat) (topics : List Topic) : List (List InlineKeyboardButton) :=
  topics.mapIdx fun topicIndex topic =>
    [callbackButton topic.title
      ("topic_" ++ toString sectionIndex ++ "_" ++ toString topicIndex)]

/-- Rows of a subtopics menu:
`topic.subtopics.map((subtopic, subtopicIndex) => ...)`. -/
def subtopicButtons (sectionIndex topicIndex : Nat) (subtopics : List Subtopic) :
    List (List InlineKeyboardButton) :=
  subtopics.mapIdx fun subtopicIndex subtopic =>
    [callbackButton subtopic.title
      ("subtopic_" ++ toString sectionIndex ++ "_" ++ toString topicIndex ++ "_" ++
        toString subtopicIndex)]

/-- Function `sendMainMenu` (bot.js 66-85). -/
def sendMainMenu (kb : KnowledgeBase) (userStates : UserStates) (chatId : ChatId) :
    List Effect :=
  let sections := kb.sections
  if sections.length = 0 then
    [Effect.sendMessage chatId "В базе знаний пока нет разделов." Options.empty false]
  else
    sendOrEditMessage userStates chatId "📎Выберите необходимый раздел:"
      (Options.keyboard (sectionButtons sections))

/-- Function `sendTopicsMenu` (bot.js 87-108). -/
def sendTopicsMenu (kb : KnowledgeBase) (userStates : UserStates) (chatId : ChatId)
    (sectionIndex : JSNum) : List Effect :=
  let noTopics :=
    sendOrEditMessage userStates chatId "В выбранном разделе нет доступных тем." Options.empty
  match elem? kb.sections sectionIndex with
  | none => noTopics
  | some (s, sec) =>
    match sec.topics with
    | none => noTopics
    | some topics =>
      if topics.length = 0 then noTopics
      else
        let backButton := [callbackButton backLabel "back_main"]
        sendOrEditMessage userStates chatId
          ("Выберите тему из раздела \"" ++ sec.name ++ "\":")
          (Options.keyboard (topicButtons s topics ++ [backButton]))

/-- Function `sendSubtopicsMenu` (bot.js 110-131).  Reading `.topics` of an
absent section, or subscripting an absent `topics`, throws. -/
def sendSubtopicsMenu (kb : KnowledgeBase) (userStates : UserStates) (chatId : ChatId)
    (sectionIndex topicIndex : JSNum) : Except JSError (List Effect) :=
  let noSubtopics :=
    sendOrEditMessage userStates chatId "В выбранной теме нет доступных подтем." Options.empty
  match elem? kb.sections sectionIndex with
  | none => Except.error JSError.typeError
  | some (s, sec) =>
    match sec.topics with
    | none => Except.error JSError.typeError
    | some topics =>
      match elem? topics topicIndex with
      | none => Except.ok noSubtopics
      | some (t, topic) =>
        match topic.subtopics with
        | none => Except.ok noSubtopics
        | some subtopics =>
          if subtopics.length = 0 then Except.ok noSubtopics
          else
            let backButton := [callbackButton backLabel ("back_topic_" ++ toString s)]
            Except.ok (sendOrEditMessage userStates chatId
              ("📌 Выберите подтему из темы \"" ++ topic.title ++ "\":")
              (Options.keyboard (subtopicButtons s t subtopics ++ [backButton])))

/-- A `link` field is truthy when present and not the empty string. -/
def truthyLink : Option String → Option String
  | some l => if l = "" then none else some l
  | none => none

/-- Function `sendArticleLink` (bot.js 178-201).  Reading `.topics` of an
absent section, subscripting an absent `topics`, reading `.subtopics` of an
absent topic and subscripting an absent `subtopics` all throw. -/
def sendArticleLink (kb : KnowledgeBase) (userStates : UserStates) (chatId : ChatId)
    (sectionIndex topicIndex subtopicIndex : JSNum) : Except JSError (List Effect) :=
  let notFound := sendOrEditMessage userStates chatId "Статья не найдена." Options.empty
  match elem? kb.sections sectionIndex with
  | none => Except.error JSError.typeError
  | some (s, sec) =>
    match sec.topics with
    | none => Except.error JSError.typeError
    | some topics =>
      match elem? topics topicIndex with
      | none => Except.error JSError.typeError
      | some (_, topic) =>
        match topic.subtopics with
        | none => Except.error JSError.typeError
        | some subtopics =>
          match elem? subtopics subtopicIndex with
          | none => Except.ok notFound
          | some (_, subtopic) =>
            match truthyLink subtopic.link with
            | none => Except.ok notFound
            | some link =>
              let articleLinkButton : List (List InlineKeyboardButton) :=
                [[{ text := "Ссылка на статью: " ++ subtopic.title,
                    callback_data := none, url := some link }]]
              let backButton := [callbackButton backLabel ("back_topic_" ++ toString s)]
              Except.ok (sendOrEditMessage userStates chatId "😎 Вот ссылка на статью:"
                (Options.keyboard (articleLinkButton ++ [backButton])))

/-! ## The `callback_query` handler -/

/-- An incoming callback query: its id, the chat of its message, its data. -/
structure CallbackQuery where
  id : String
  chatId : ChatId
  data : String
  deriving DecidableEq, Repr

/-- The branch of the handler taken for some callback data, with the decoded
arguments. -/
inductive Route
  | mainMenu
  | topicsMenu (sectionIndex : JSNum)
  | subtopicsMenu (sectionIndex topicIndex : JSNum)
  | articleLink (sectionIndex topicIndex subtopicIndex : JSNum)
  | unknown
  deriving DecidableEq, Repr

/-- Expression `parseInt(data.split('_')[k], 10)`. -/
def parseIntAt (js : JSBuiltins) (data : String) (k : Nat) : JSNum :=
  match (split data '_')[k]? with
  | some part => js.parseInt10 part
  | none => none

/-- Element `k` of `data.split('_').map(Number)`, `undefined` when absent. -/
def numberAt (js : JSBuiltins) (data : String) (k : Nat) : JSNum :=
  match ((split data '_').map js.number)[k]? with
  | some n => n
  | none => none

/-- The chain of tests of the handler (bot.js 140-173), in source order. -/
def route (js : JSBuiltins) (data : String) : Route :=
  if data = "back_main" then Route.mainMenu
  else if startsWith data "back_section_" then Route.topicsMenu (parseIntAt js data 2)
  else if startsWith data "back_topic_" then Route.topicsMenu (parseIntAt js data 2)
  else if startsWith data "section_" then Route.topicsMenu (parseIntAt js data 1)
  else if startsWith data "topic_" then
    Route.subtopicsMenu (numberAt js data 1) (numberAt js data 2)
  else if startsWith data "subtopic_" then
    Route.articleLink (numberAt js data 1) (numberAt js data 2) (numberAt js data 3)
  else Route.unknown

/-- Alert text of the last line of the handler. -/
def unknownRequest : String := "Неизвестный запрос"

/-- The `callback_query` handler (bot.js 136-176): the calls it makes, or the
exception it throws.  It does not write `userStates` itself. -/
def onCallbackQuery (js : JSBuiltins) (kb : KnowledgeBase) (userStates : UserStates)
    (q : CallbackQuery) : Except JSError (List Effect) :=
  match route js q.data with
  | Route.mainMenu => Except.ok (sendMainMenu kb userStates q.chatId)
  | Route.topicsMenu s => Except.ok (sendTopicsMenu kb userStates q.chatId s)
  | Route.subtopicsMenu s t => sendSubtopicsMenu kb userStates q.chatId s t
  | Route.articleLink s t u => sendArticleLink kb userStates q.chatId s t u
  | Route.unknown => Except.ok [Effect.answerCallbackQuery q.id unknownRequest true]

/-! ## The bot as a state machine -/

/-- The mutable module state. -/
structure BotState where
  userStates : UserStates
  statistics : Statistics

/-- The state `/start` stores for a chat. -/
def freshUserState : UserState := { level := "main", data := none, messageId := none }

/-- The map `userStates` after `userStates[chatId] = value`. -/
def setUserState (userStates : UserStates) (chatId : ChatId) (value : UserState) : UserStates :=
  fun c => if c = chatId then some value else userStates c

/-- The welcome text of `/start`. -/
def welcomeMessage : String := "\n  🖐 Привет! Я ваш бот для работы с базой знаний.\n  "

/-- The `/start` handler (bot.js 50-63). -/
def onStart (kb : KnowledgeBase) (st : BotState) (chatId : ChatId) : BotState × List Effect :=
  let userStates := setUserState st.userStates chatId freshUserState
  let statistics : Statistics :=
    { start_command_count := jsAddOne st.statistics.start_command_count,
      article_views := st.statistics.article_views }
  ({ userStates := userStates, statistics := statistics },
    [Effect.writeStatistics statistics,
     Effect.sendMessage chatId welcomeMessage
       { parse_mode := some "Markdown", reply_markup := none } false]
    ++ sendMainMenu kb userStates chatId)

/-- Settling of the promise of the `sendMessage` of `sendOrEditMessage`
(bot.js 213-217).  On success the callback runs
`userStates[chatId].messageId = message.message_id`; when the chat has no state
this throws inside the promise and `.catch` logs it.  A rejection is logged. -/
def onSendResolved (st : BotState) (chatId : ChatId) (result : Option Int) : BotState :=
  match result with
  | none => st
  | some message_id =>
    match st.userStates chatId with
    | none => st
    | some u =>
      { userStates := setUserState st.userStates chatId
          { level := u.level, data := u.data, messageId := some message_id },
        statistics := st.statistics }

/-- What the event loop delivers to the bot. -/
inductive Event
  | start (chatId : ChatId)
  | callbackQuery (q : CallbackQuery)
  | sendResolved (chatId : ChatId) (result : Option Int)
  deriving DecidableEq, Repr

/-- One turn of the event loop.  A handler that throws has made no call. -/
def step (js : JSBuiltins) (kb : KnowledgeBase) (st : BotState) : Event → BotState × List Effect
  | Event.start chatId => onStart kb st chatId
  | Event.callbackQuery q =>
    match onCallbackQuery js kb st.userStates q with
    | Except.ok effects => (st, effects)
    | Except.error _ => (st, [])
  | Event.sendResolved chatId result => (onSendResolved st chatId result, [])

/-- A sequence of turns: final state and all calls made, in order. -/
def run (js : JSBuiltins) (kb : KnowledgeBase) : BotState → List Event → BotState × List Effect
  | st, [] => (st, [])
  | st, ev :: evs =>
    let r := step js kb st ev
    let rest := run js kb r.1 evs
    (rest.1, r.2 ++ rest.2)

/-- The promises of the id-recording sends among `effects` settle, all with
`result` (a handler makes at most one such send). -/
def settle (st : BotState) (effects : List Effect) (result : Option Int) : BotState :=
  effects.foldl
    (fun acc e =>
      match e with
      | Effect.sendMessage chatId _ _ true => onSendResolved acc chatId result
      | _ => acc)
    st

/-- One turn followed at once by the settling of the send it made. -/
def stepSettled (js : JSBuiltins) (kb : KnowledgeBase) (st : BotState) (ev : Event)
    (result : Option Int) : BotState × List Effect :=
  let r := step js kb st ev
  (settle r.1 r.2 result, r.2)

/-- A button press with the outcome of the send it may trigger. -/
structure Press where
  query : CallbackQuery
  result : Option Int
  deriving DecidableEq, Repr

/-- A sequence of button presses, every delivery being processed before the
next press. -/
def runPresses (js : JSBuiltins) (kb : KnowledgeBase) :
    BotState → List Press → BotState × List Effect
  | st, [] => (st, [])
  | st, p :: ps =>
    let r := stepSettled js kb st (Event.callbackQuery p.query) p.result
    let rest := runPresses js kb r.1 ps
    (rest.1, r.2 ++ rest.2)

/-- Number of `/start` messages in a trace. -/
def countStarts : List Event → Nat
  | [] => 0
  | Event.start _ :: evs => countStarts evs + 1
  | _ :: evs => countStarts evs

/-! ## Vocabulary of the claims -/

/-- The callback data is `back_main` or starts with one of the five
navigation words the handler tests for. -/
def isRecognised (data : String) : Bool :=
  decide (data = "back_main") || startsWith data "back_section_" ||
  startsWith data "back_topic_" || startsWith data "section_" ||
  startsWith data "topic_" || startsWith data "subtopic_"

/-- Some button of the keyboard of the call carries the callback data `d`. -/
def Effect.offers (e : Effect) (d : String) : Prop :=
  ∃ row ∈ e.keyboard, ∃ b ∈ row, b.callback_data = some d

/-- The callback data `d` is on a button of a keyboard that `sendMainMenu`,
`sendTopicsMenu`, `sendSubtopicsMenu` or `sendArticleLink` builds from the
knowledge base, whatever the arguments of the call. -/
def Rendered (kb : KnowledgeBase) (d : String) : Prop :=
  ∃ (userStates : UserStates) (c : ChatId),
    (∃ e ∈ sendMainMenu kb userStates c, e.offers d) ∨
    (∃ si, ∃ e ∈ sendTopicsMenu kb userStates c si, e.offers d) ∨
    (∃ si ti effects, sendSubtopicsMenu kb userStates c si ti = Except.ok effects ∧
      ∃ e ∈ effects, e.offers d) ∨
    (∃ si ti ui effects, sendArticleLink kb userStates c si ti ui = Except.ok effects ∧
      ∃ e ∈ effects, e.offers d)

/-! ## Sample data -/

/-- State of a freshly started process whose statistics file holds
`start_command_count = 2 ^ 53`. -/
def saturatedState : BotState :=
  { userStates := fun _ => none,
    statistics := { start_command_count := 2 ^ 53, article_views := [] } }

/-- State of a freshly started process with nothing loaded. -/
def initialState : BotState :=
  { userStates := fun _ => none,
    statistics := { start_command_count := 0, article_views := [] } }

/-- A knowledge base with one section, one topic and two subtopics, the second
without a link. -/
def sampleKB : KnowledgeBase :=
  { sections :=
      [{ name := "A",
         topics := some
           [{ title := "T",
              subtopics := some
                [{ title := "S", link := some "https://example.org/s" },
                 { title := "N", link := none }] }] }] }

/-- The knowledge base used when loading fails. -/
def emptyKB : KnowledgeBase := { sections := [] }

/-! ## Decimal rendering, splitting and decoding -/

theorem digitChar_isDigit : ∀ m : Nat, m < 10 →
    (Nat.digitChar m).isDigit = true ∧ (Nat.digitChar m).toNat - 48 = m := by
  decide

theorem toString_data (n : Nat) : (toString n).data = Nat.toDigits 10 n := rfl

theorem toDigitsCore_value : ∀ (fuel n : Nat) (ds : List Char), n < fuel →
    ∃ k : Nat, ∀ a : Nat,
      decimalValue a (Nat.toDigitsCore 10 fuel n ds) = decimalValue (a * 10 ^ k + n) ds := by
  intro fuel
  induction fuel with
  | zero => intro n ds h; omega
  | succ fuel ih =>
    intro n ds h
    have hd := digitChar_isDigit (n % 10) (Nat.mod_lt _ (by decide))
    by_cases h0 : n / 10 = 0
    · refine ⟨1, fun a => ?_⟩
      have hn : n % 10 = n := by omega
      simp only [Nat.toDigitsCore, h0, if_true, decimalValue, hd.1, hd.2, pow_one]
      rw [hn]
    · obtain ⟨k, hk⟩ := ih (n / 10) (Nat.digitChar (n % 10) :: ds) (by omega)
      refine ⟨k + 1, fun a => ?_⟩
      simp only [Nat.toDigitsCore, h0, if_false]
      rw [hk a]
      simp only [decimalValue, hd.1, hd.2, if_true]
      congr 1
      rw [pow_succ]
      have := Nat.div_add_mod n 10
      linarith

theorem toDigitsCore_digits : ∀ (fuel n : Nat) (ds : List Char),
    ∀ c ∈ Nat.toDigitsCore 10 fuel n ds, c.isDigit = true ∨ c ∈ ds := by
  intro fuel
  induction fuel with
  | zero => intro n ds c hc; right; simpa [Nat.toDigitsCore] using hc
  | succ fuel ih =>
    intro n ds c hc
    have hd := digitChar_isDigit (n % 10) (Nat.mod_lt _ (by decide))
    by_cases h0 : n / 10 = 0
    · simp only [Nat.toDigitsCore, h0, if_true, List.mem_cons] at hc
      rcases hc with rfl | hc
      · exact Or.inl hd.1
      · exact Or.inr hc
    · simp only [Nat.toDigitsCore, h0, if_false] at hc
      rcases ih _ _ c hc with h | h
      · exact Or.inl h
      · rcases List.mem_cons.1 h with rfl | h
        · exact Or.inl hd.1
        · exact Or.inr h

theorem toDigitsCore_ne_nil : ∀ (fuel n : Nat) (ds : List Char),
    ds ≠ [] ∨ 0 < fuel → Nat.toDigitsCore 10 fuel n ds ≠ [] := by
  intro fuel
  induction fuel with
  | zero => intro n ds h; rcases h with h | h
            · simpa [Nat.toDigitsCore] using h
            · omega
  | succ fuel ih =>
    intro n ds _
    by_cases h0 : n / 10 = 0
    · simp [Nat.toDigitsCore, h0]
    · simp only [Nat.toDigitsCore, h0, if_false]
      exact ih _ _ (Or.inl (by simp))

theorem toString_digits (n : Nat) : ∀ c ∈ (toString n).data, c.isDigit = true := by
  intro c hc
  rw [toString_data] at hc
  rcases toDigitsCore_digits _ _ _ c hc with h | h
  · exact h
  · simp at h

theorem toString_no_underscore (n : Nat) : '_' ∉ (toString n).data := by
  intro h
  have := toString_digits n _ h
  revert this
  decide

theorem readDecimal_toString (n : Nat) : readDecimal (toString n) = some n := by
  have hne : (toString n).data ≠ [] := by
    rw [toString_data]; exact toDigitsCore_ne_nil _ _ _ (Or.inr (by omega))
  obtain ⟨k, hk⟩ := toDigitsCore_value (n + 1) n [] (by omega)
  have hv : decimalValue 0 (toString n).data = some n := by
    rw [toString_data, Nat.toDigits, hk 0]; simp [decimalValue]
  unfold readDecimal
  split
  · next h => exact absurd h hne
  · exact hv

theorem decimalBuiltins_canonical : decimalBuiltins.Canonical := by
  intro n _
  exact ⟨readDecimal_toString n, readDecimal_toString n⟩

theorem splitChars_not_mem (sep : Char) : ∀ l : List Char, sep ∉ l → splitChars sep l = [l] := by
  intro l
  induction l with
  | nil => intro _; rfl
  | cons c cs ih =>
    intro h
    have hc : c ≠ sep := fun e => h (by simp [e])
    have hcs : sep ∉ cs := fun e => h (by simp [e])
    simp [splitChars, hc, ih hcs]

theorem splitChars_append (sep : Char) (b : List Char) : ∀ a : List Char, sep ∉ a →
    splitChars sep (a ++ sep :: b) = a :: splitChars sep b := by
  intro a
  induction a with
  | nil => intro _; simp [splitChars]
  | cons c cs ih =>
    intro h
    have hc : c ≠ sep := fun e => h (by simp [e])
    have hcs : sep ∉ cs := fun e => h (by simp [e])
    simp [splitChars, hc, ih hcs]



theorem split_section (w : String) (hw : '_' ∉ w.data) (a : Nat) :
    split (w ++ "_" ++ toString a) '_' = [w, toString a] := by
  have h : (w ++ "_" ++ toString a).data = w.data ++ '_' :: (toString a).data := by
    simp [String.data_append]
  unfold split
  rw [h, splitChars_append _ _ _ hw, splitChars_not_mem _ _ (toString_no_underscore a)]
  rfl

theorem route_section (js : JSBuiltins) (hjs : js.Canonical) (s : Nat) (hs : s < 2 ^ 53) :
    route js ("section_" ++ toString s) = Route.topicsMenu (some s) := by
  have hsp : split ("section_" ++ toString s) '_' = ["section", toString s] :=
    split_section "section" (by decide) s
  have hd : ("section_" ++ toString s).data = "section_".data ++ (toString s).data :=
    String.data_append _ _
  have h1 : ("section_" ++ toString s) ≠ "back_main" := by
    intro h
    have := congrArg String.data h
    rw [hd] at this
    simp at this
  simp [route, h1, startsWith, hd, parseIntAt, hsp, (hjs s hs).1]

theorem split_topic (w : String) (hw : '_' ∉ w.data) (a b : Nat) :
    split (w ++ "_" ++ toString a ++ "_" ++ toString b) '_' = [w, toString a, toString b] := by
  have h : (w ++ "_" ++ toString a ++ "_" ++ toString b).data
      = w.data ++ '_' :: ((toString a).data ++ '_' :: (toString b).data) := by
    simp [String.data_append]
  unfold split
  rw [h, splitChars_append _ _ _ hw, splitChars_append _ _ _ (toString_no_underscore a),
    splitChars_not_mem _ _ (toString_no_underscore b)]
  rfl

theorem split_subtopic (w : String) (hw : '_' ∉ w.data) (a b c : Nat) :
    split (w ++ "_" ++ toString a ++ "_" ++ toString b ++ "_" ++ toString c) '_'
      = [w, toString a, toString b, toString c] := by
  have h : (w ++ "_" ++ toString a ++ "_" ++ toString b ++ "_" ++ toString c).data
      = w.data ++ '_' :: ((toString a).data ++ '_' :: ((toString b).data ++
          '_' :: (toString c).data)) := by
    simp [String.data_append]
  unfold split
  rw [h, splitChars_append _ _ _ hw, splitChars_append _ _ _ (toString_no_underscore a),
    splitChars_append _ _ _ (toString_no_underscore b),
    splitChars_not_mem _ _ (toString_no_underscore c)]
  rfl

theorem route_topic (js : JSBuiltins) (hjs : js.Canonical) (s t : Nat) (hs : s < 2 ^ 53)
    (ht : t < 2 ^ 53) :
    route js ("topic_" ++ toString s ++ "_" ++ toString t)
      = Route.subtopicsMenu (some s) (some t) := by
  have hsp : split ("topic_" ++ toString s ++ "_" ++ toString t) '_'
      = ["topic", toString s, toString t] := split_topic "topic" (by decide) s t
  have hd : ("topic_" ++ toString s ++ "_" ++ toString t).data
      = "topic_".data ++ ((toString s).data ++ '_' :: (toString t).data) := by
    simp [String.data_append]
  have h1 : ("topic_" ++ toString s ++ "_" ++ toString t) ≠ "back_main" := by
    intro h
    have := congrArg String.data h
    rw [hd] at this
    simp at this
  simp [route, h1, startsWith, hd, numberAt, hsp, (hjs s hs).2, (hjs t ht).2]

theorem route_subtopic (js : JSBuiltins) (hjs : js.Canonical) (s t u : Nat) (hs : s < 2 ^ 53)
    (ht : t < 2 ^ 53) (hu : u < 2 ^ 53) :
    route js ("subtopic_" ++ toString s ++ "_" ++ toString t ++ "_" ++ toString u)
      = Route.articleLink (some s) (some t) (some u) := by
  have hsp : split ("subtopic_" ++ toString s ++ "_" ++ toString t ++ "_" ++ toString u) '_'
      = ["subtopic", toString s, toString t, toString u] :=
    split_subtopic "subtopic" (by decide) s t u
  have hd : ("subtopic_" ++ toString s ++ "_" ++ toString t ++ "_" ++ toString u).data
      = "subtopic_".data ++ ((toString s).data ++ '_' :: ((toString t).data ++
          '_' :: (toString u).data)) := by
    simp [String.data_append]
  have h1 : ("subtopic_" ++ toString s ++ "_" ++ toString t ++ "_" ++ toString u)
      ≠ "back_main" := by
    intro h
    have := congrArg String.data h
    rw [hd] at this
    simp at this
  simp [route, h1, startsWith, hd, numberAt, hsp, (hjs s hs).2, (hjs t ht).2, (hjs u hu).2]

theorem route_back_topic (js : JSBuiltins) (hjs : js.Canonical) (s : Nat) (hs : s < 2 ^ 53) :
    route js ("back_topic_" ++ toString s) = Route.topicsMenu (some s) := by
  have hsp : split ("back_topic_" ++ toString s) '_' = ["back", "topic", toString s] := by
    have h : ("back_topic_" ++ toString s).data
        = "back".data ++ '_' :: ("topic".data ++ '_' :: (toString s).data) := by
      simp [String.data_append]
    unfold split
    rw [h, splitChars_append _ _ _ (by decide), splitChars_append _ _ _ (by decide),
      splitChars_not_mem _ _ (toString_no_underscore s)]
    rfl
  have hd : ("back_topic_" ++ toString s).data = "back_topic_".data ++ (toString s).data :=
    String.data_append _ _
  have h1 : ("back_topic_" ++ toString s) ≠ "back_main" := by
    intro h
    have := congrArg String.data h
    rw [hd] at this
    simp at this
  simp [route, h1, startsWith, hd, parseIntAt, hsp, (hjs s hs).1]

theorem route_back_main (js : JSBuiltins) : route js "back_main" = Route.mainMenu := by
  simp [route]

/-! ## Shape of the calls made by the menus -/

theorem sendOrEditMessage_cases (userStates : UserStates) (c : ChatId) (text : String)
    (options : Options) :
    (∃ m, storedMessageId userStates c = some m ∧ m ≠ 0 ∧
      sendOrEditMessage userStates c text options
        = [Effect.editMessageText text c m options.reply_markup]) ∨
    ((storedMessageId userStates c = none ∨ storedMessageId userStates c = some 0) ∧
      sendOrEditMessage userStates c text options
        = [Effect.sendMessage c text options true]) := by
  unfold sendOrEditMessage
  cases h : storedMessageId userStates c with
  | none => right; simp
  | some m =>
    by_cases hm : m = 0
    · right; simp [hm]
    · left; exact ⟨m, rfl, hm, by simp [hm]⟩

theorem sendOrEditMessage_keyboard (userStates : UserStates) (c : ChatId) (text : String)
    (rows : List (List InlineKeyboardButton)) :
    ∃ e, sendOrEditMessage userStates c text (Options.keyboard rows) = [e] ∧ e.keyboard = rows := by
  rcases sendOrEditMessage_cases userStates c text (Options.keyboard rows) with
    ⟨m, _, _, h⟩ | ⟨_, h⟩
  · exact ⟨_, h, rfl⟩
  · exact ⟨_, h, rfl⟩

theorem sendOrEditMessage_empty_keyboard (userStates : UserStates) (c : ChatId) (text : String) :
    ∃ e, sendOrEditMessage userStates c text Options.empty = [e] ∧ e.keyboard = [] := by
  rcases sendOrEditMessage_cases userStates c text Options.empty with ⟨m, _, _, h⟩ | ⟨_, h⟩
  · exact ⟨_, h, rfl⟩
  · exact ⟨_, h, rfl⟩

theorem elem?_some {α : Type} (xs : List α) (n : Nat) (x : α) (h : xs[n]? = some x) :
    elem? xs (some n) = some (n, x) := by
  simp [elem?, h]

theorem elem?_eq_some {α : Type} (xs : List α) (i : JSNum) (n : Nat) (x : α)
    (h : elem? xs i = some (n, x)) : i = some n ∧ xs[n]? = some x := by
  unfold elem? at h
  cases i with
  | none => simp at h
  | some k =>
    cases hk : xs[k]? with
    | none => simp [hk] at h
    | some y =>
      simp [hk] at h
      obtain ⟨rfl, rfl⟩ := h
      exact ⟨rfl, hk⟩

theorem sendMainMenu_eq (kb : KnowledgeBase) (userStates : UserStates) (c : ChatId)
    (h : kb.sections ≠ []) :
    sendMainMenu kb userStates c
      = sendOrEditMessage userStates c "📎Выберите необходимый раздел:"
          (Options.keyboard (sectionButtons kb.sections)) := by
  have : kb.sections.length ≠ 0 := by simpa using h
  simp [sendMainMenu, this]

theorem sendTopicsMenu_eq (kb : KnowledgeBase) (userStates : UserStates) (c : ChatId)
    (s : Nat) (sec : Section) (topics : List Topic) (hs : kb.sections[s]? = some sec)
    (ht : sec.topics = some topics) (hne : topics ≠ []) :
    sendTopicsMenu kb userStates c (some s)
      = sendOrEditMessage userStates c ("Выберите тему из раздела \"" ++ sec.name ++ "\":")
          (Options.keyboard (topicButtons s topics ++ [[callbackButton backLabel "back_main"]])) := by
  have : topics.length ≠ 0 := by simpa using hne
  simp [sendTopicsMenu, elem?_some _ _ _ hs, ht, this]

theorem sendSubtopicsMenu_eq (kb : KnowledgeBase) (userStates : UserStates) (c : ChatId)
    (s t : Nat) (sec : Section) (topics : List Topic) (topic : Topic)
    (subtopics : List Subtopic) (hs : kb.sections[s]? = some sec)
    (ht : sec.topics = some topics) (htt : topics[t]? = some topic)
    (hu : topic.subtopics = some subtopics) (hne : subtopics ≠ []) :
    sendSubtopicsMenu kb userStates c (some s) (some t)
      = Except.ok (sendOrEditMessage userStates c
          ("📌 Выберите подтему из темы \"" ++ topic.title ++ "\":")
          (Options.keyboard (subtopicButtons s t subtopics ++
            [[callbackButton backLabel ("back_topic_" ++ toString s)]]))) := by
  have : subtopics.length ≠ 0 := by simpa using hne
  simp [sendSubtopicsMenu, elem?_some _ _ _ hs, ht, elem?_some _ _ _ htt, hu, this]

theorem sendArticleLink_eq (kb : KnowledgeBase) (userStates : UserStates) (c : ChatId)
    (s t u : Nat) (sec : Section) (topics : List Topic) (topic : Topic)
    (subtopics : List Subtopic) (subtopic : Subtopic) (hs : kb.sections[s]? = some sec)
    (ht : sec.topics = some topics) (htt : topics[t]? = some topic)
    (hu : topic.subtopics = some subtopics) (huu : subtopics[u]? = some subtopic) :
    sendArticleLink kb userStates c (some s) (some t) (some u)
      = Except.ok
          (match truthyLink subtopic.link with
           | none => sendOrEditMessage userStates c "Статья не найдена." Options.empty
           | some link =>
             sendOrEditMessage userStates c "😎 Вот ссылка на статью:"
               (Options.keyboard
                 [[{ text := "Ссылка на статью: " ++ subtopic.title,
                     callback_data := none, url := some link }],
                  [callbackButton backLabel ("back_topic_" ++ toString s)]])) := by
  simp only [sendArticleLink, elem?_some _ _ _ hs, ht, elem?_some _ _ _ htt, hu,
    elem?_some _ _ _ huu]
  cases truthyLink subtopic.link <;> rfl

theorem limit_lt (n : Nat) (h : n < maxArrayLength) : n < 2 ^ 53 := by
  unfold maxArrayLength at h
  omega

theorem limit_section (kb : KnowledgeBase) (hkb : kb.withinArrayLimit = true) (s : Nat)
    (sec : Section) (hs : kb.sections[s]? = some sec) : s < 2 ^ 53 := by
  have hlen : s < kb.sections.length := (List.getElem?_eq_some_iff.1 hs).1
  simp only [KnowledgeBase.withinArrayLimit, Bool.and_eq_true, decide_eq_true_eq] at hkb
  exact limit_lt s (by omega)

theorem limit_topic (kb : KnowledgeBase) (hkb : kb.withinArrayLimit = true) (s t : Nat)
    (sec : Section) (topics : List Topic) (topic : Topic) (hs : kb.sections[s]? = some sec)
    (ht : sec.topics = some topics) (htt : topics[t]? = some topic) : t < 2 ^ 53 := by
  have hmem : sec ∈ kb.sections := List.getElem?_mem hs
  have hlen : t < topics.length := (List.getElem?_eq_some_iff.1 htt).1
  simp only [KnowledgeBase.withinArrayLimit, Bool.and_eq_true, decide_eq_true_eq,
    List.all_eq_true] at hkb
  have h := hkb.2 sec hmem
  simp only [ht, Bool.and_eq_true, decide_eq_true_eq] at h
  exact limit_lt t (by omega)

theorem limit_subtopic (kb : KnowledgeBase) (hkb : kb.withinArrayLimit = true) (s t u : Nat)
    (sec : Section) (topics : List Topic) (topic : Topic) (subtopics : List Subtopic)
    (subtopic : Subtopic) (hs : kb.sections[s]? = some sec)
    (ht : sec.topics = some topics) (htt : topics[t]? = some topic)
    (hu : topic.subtopics = some subtopics) (huu : subtopics[u]? = some subtopic) :
    u < 2 ^ 53 := by
  have hmem : sec ∈ kb.sections := List.getElem?_mem hs
  have hmem2 : topic ∈ topics := List.getElem?_mem htt
  have hlen : u < subtopics.length := (List.getElem?_eq_some_iff.1 huu).1
  simp only [KnowledgeBase.withinArrayLimit, Bool.and_eq_true, decide_eq_true_eq,
    List.all_eq_true] at hkb
  have h := hkb.2 sec hmem
  simp only [ht, Bool.and_eq_true, decide_eq_true_eq, List.all_eq_true] at h
  have h2 := h.2 topic hmem2
  simp only [hu, decide_eq_true_eq] at h2
  exact limit_lt u (by omega)

theorem ne_nil_of_getElem? {α : Type} (xs : List α) (n : Nat) (x : α) (h : xs[n]? = some x) :
    xs ≠ [] := by
  intro e
  simp [e] at h

theorem sectionButtons_get (sections : List Section) (s : Nat) (sec : Section)
    (h : sections[s]? = some sec) :
    (sectionButtons sections)[s]?
      = some [callbackButton sec.name ("section_" ++ toString s)] := by
  simp [sectionButtons, h]

theorem topicButtons_get (s : Nat) (topics : List Topic) (t : Nat) (topic : Topic)
    (h : topics[t]? = some topic) (rest : List (List InlineKeyboardButton)) :
    (topicButtons s topics ++ rest)[t]?
      = some [callbackButton topic.title
          ("topic_" ++ toString s ++ "_" ++ toString t)] := by
  have hlen : t < (topicButtons s topics).length := by
    simpa [topicButtons] using (List.getElem?_eq_some_iff.1 h).1
  rw [List.getElem?_append_left hlen]
  simp [topicButtons, h]

theorem subtopicButtons_get (s t : Nat) (subtopics : List Subtopic) (u : Nat)
    (subtopic : Subtopic) (h : subtopics[u]? = some subtopic)
    (rest : List (List InlineKeyboardButton)) :
    (subtopicButtons s t subtopics ++ rest)[u]?
      = some [callbackButton subtopic.title
          ("subtopic_" ++ toString s ++ "_" ++ toString t ++ "_" ++ toString u)] := by
  have hlen : u < (subtopicButtons s t subtopics).length := by
    simpa [subtopicButtons] using (List.getElem?_eq_some_iff.1 h).1
  rw [List.getElem?_append_left hlen]
  simp [subtopicButtons, h]

/-! ## Claims -/

/-- C1: `sendOrEditMessage` decides from the chat's state alone.  When
`userStates[c]` exists and its `messageId` is a non-zero number `m`, the only
call is `editMessageText(text, {chat_id: c, message_id: m, reply_markup:
options.reply_markup})`; in every other case the only call is
`sendMessage(c, text, options)`. -/
theorem sendOrEditMessage_decides (userStates : UserStates) (c : ChatId) (text : String)
    (options : Options) :
    (∀ u m, userStates c = some u → u.messageId = some m → m ≠ 0 →
      sendOrEditMessage userStates c text options
        = [Effect.editMessageText text c m options.reply_markup]) ∧
    ((¬ ∃ u m, userStates c = some u ∧ u.messageId = some m ∧ m ≠ 0) →
      sendOrEditMessage userStates c text options
        = [Effect.sendMessage c text options true]) := by
  constructor
  · intro u m hu hm h0
    simp [sendOrEditMessage, storedMessageId, hu, hm, h0]
  · intro h
    rcases sendOrEditMessage_cases userStates c text options with ⟨m, hs, h0, _⟩ | ⟨_, he⟩
    · exfalso
      apply h
      unfold storedMessageId at hs
      cases hu : userStates c with
      | none => simp [hu] at hs
      | some u => exact ⟨u, m, rfl, by simpa [hu] using hs, h0⟩
    · exact he

/-- Witness of C1 on a chat with stored message id `7` and on a chat without
state. -/
theorem sendOrEditMessage_decides_witness :
    sendOrEditMessage
        (setUserState initialState.userStates 1
          { level := "main", data := none, messageId := some 7 })
        1 "menu" Options.empty
      = [Effect.editMessageText "menu" 1 7 none] ∧
    sendOrEditMessage initialState.userStates 1 "menu" Options.empty
      = [Effect.sendMessage 1 "menu" Options.empty true] :=
  ⟨(sendOrEditMessage_decides _ 1 "menu" Options.empty).1
      { level := "main", data := none, messageId := some 7 } 7 rfl rfl (by decide),
   (sendOrEditMessage_decides initialState.userStates 1 "menu" Options.empty).2
      (by simp [initialState])⟩

/-- C2: callback data round-trips.  For every knowledge base within the array
limit and in-range indices, button `s` of the main menu carries `section_s`,
button `t` of the topics menu of section `s` carries `topic_s_t`, button `u` of
the subtopics menu of topic `(s, t)` carries `subtopic_s_t_u`; the handler
decodes each to the same indices and calls `sendTopicsMenu(c, s)`,
`sendSubtopicsMenu(c, s, t)` and `sendArticleLink(c, s, t, u)`. -/
theorem callback_data_roundtrip (js : JSBuiltins) (hjs : js.Canonical) (kb : KnowledgeBase)
    (hkb : kb.withinArrayLimit = true) (userStates : UserStates) (c : ChatId) (qid : String) :
    (∀ s sec, kb.sections[s]? = some sec →
      (∃ e, sendMainMenu kb userStates c = [e] ∧
        e.keyboard[s]? = some [callbackButton sec.name ("section_" ++ toString s)]) ∧
      route js ("section_" ++ toString s) = Route.topicsMenu (some s) ∧
      onCallbackQuery js kb userStates ⟨qid, c, "section_" ++ toString s⟩
        = Except.ok (sendTopicsMenu kb userStates c (some s))) ∧
    (∀ s t sec topics topic, kb.sections[s]? = some sec → sec.topics = some topics →
      topics[t]? = some topic →
      (∃ e, sendTopicsMenu kb userStates c (some s) = [e] ∧
        e.keyboard[t]? = some [callbackButton topic.title
          ("topic_" ++ toString s ++ "_" ++ toString t)]) ∧
      route js ("topic_" ++ toString s ++ "_" ++ toString t)
        = Route.subtopicsMenu (some s) (some t) ∧
      onCallbackQuery js kb userStates ⟨qid, c, "topic_" ++ toString s ++ "_" ++ toString t⟩
        = sendSubtopicsMenu kb userStates c (some s) (some t)) ∧
    (∀ s t u sec topics topic subtopics subtopic, kb.sections[s]? = some sec →
      sec.topics = some topics → topics[t]? = some topic →
      topic.subtopics = some subtopics → subtopics[u]? = some subtopic →
      (∃ e, sendSubtopicsMenu kb userStates c (some s) (some t) = Except.ok [e] ∧
        e.keyboard[u]? = some [callbackButton subtopic.title
          ("subtopic_" ++ toString s ++ "_" ++ toString t ++ "_" ++ toString u)]) ∧
      route js ("subtopic_" ++ toString s ++ "_" ++ toString t ++ "_" ++ toString u)
        = Route.articleLink (some s) (some t) (some u) ∧
      onCallbackQuery js kb userStates
          ⟨qid, c, "subtopic_" ++ toString s ++ "_" ++ toString t ++ "_" ++ toString u⟩
        = sendArticleLink kb userStates c (some s) (some t) (some u)) := by
  refine ⟨?_, ?_, ?_⟩
  · intro s sec hs
    have hs53 := limit_section kb hkb s sec hs
    have hr := route_section js hjs s hs53
    refine ⟨?_, hr, ?_⟩
    · rw [sendMainMenu_eq kb userStates c (ne_nil_of_getElem? _ _ _ hs)]
      obtain ⟨e, he, hk⟩ := sendOrEditMessage_keyboard userStates c
        "📎Выберите необходимый раздел:" (sectionButtons kb.sections)
      exact ⟨e, he, by rw [hk]; exact sectionButtons_get _ _ _ hs⟩
    · simp [onCallbackQuery, hr]
  · intro s t sec topics topic hs ht htt
    have hs53 := limit_section kb hkb s sec hs
    have ht53 := limit_topic kb hkb s t sec topics topic hs ht htt
    have hr := route_topic js hjs s t hs53 ht53
    refine ⟨?_, hr, ?_⟩
    · rw [sendTopicsMenu_eq kb userStates c s sec topics hs ht (ne_nil_of_getElem? _ _ _ htt)]
      obtain ⟨e, he, hk⟩ := sendOrEditMessage_keyboard userStates c
        ("Выберите тему из раздела \"" ++ sec.name ++ "\":")
        (topicButtons s topics ++ [[callbackButton backLabel "back_main"]])
      exact ⟨e, he, by rw [hk]; exact topicButtons_get _ _ _ _ htt _⟩
    · simp [onCallbackQuery, hr]
  · intro s t u sec topics topic subtopics subtopic hs ht htt hu huu
    have hs53 := limit_section kb hkb s sec hs
    have ht53 := limit_topic kb hkb s t sec topics topic hs ht htt
    have hu53 := limit_subtopic kb hkb s t u sec topics topic subtopics subtopic hs ht htt hu huu
    have hr := route_subtopic js hjs s t u hs53 ht53 hu53
    refine ⟨?_, hr, ?_⟩
    · rw [sendSubtopicsMenu_eq kb userStates c s t sec topics topic subtopics hs ht htt hu
        (ne_nil_of_getElem? _ _ _ huu)]
      obtain ⟨e, he, hk⟩ := sendOrEditMessage_keyboard userStates c
        ("📌 Выберите подтему из темы \"" ++ topic.title ++ "\":")
        (subtopicButtons s t subtopics ++
          [[callbackButton backLabel ("back_topic_" ++ toString s)]])
      exact ⟨e, by rw [he], by rw [hk]; exact subtopicButtons_get _ _ _ _ _ huu _⟩
    · simp [onCallbackQuery, hr]

/-- Witness of C2 on the sample knowledge base: the subtopic button `(0, 0, 1)`
carries `subtopic_0_0_1`, which is decoded to `(0, 0, 1)`. -/
theorem callback_data_roundtrip_witness :
    (∃ e, sendSubtopicsMenu sampleKB initialState.userStates 5 (some 0) (some 0)
        = Except.ok [e] ∧
      e.keyboard[1]? = some [callbackButton "N"
        ("subtopic_" ++ toString 0 ++ "_" ++ toString 0 ++ "_" ++ toString 1)]) ∧
    route decimalBuiltins ("subtopic_" ++ toString 0 ++ "_" ++ toString 0 ++ "_" ++ toString 1)
      = Route.articleLink (some 0) (some 0) (some 1) ∧
    onCallbackQuery decimalBuiltins sampleKB initialState.userStates
        ⟨"q", 5, "subtopic_" ++ toString 0 ++ "_" ++ toString 0 ++ "_" ++ toString 1⟩
      = sendArticleLink sampleKB initialState.userStates 5 (some 0) (some 0) (some 1) :=
  (callback_data_roundtrip decimalBuiltins decimalBuiltins_canonical sampleKB (by decide)
    initialState.userStates 5 "q").2.2 0 0 1 _ _ _ _ _ rfl rfl rfl rfl rfl

theorem truthyLink_eq_some (l : Option String) (link : String) :
    truthyLink l = some link ↔ l = some link ∧ link ≠ "" := by
  cases l with
  | none => simp [truthyLink]
  | some x =>
    by_cases hx : x = ""
    · subst hx
      simp only [truthyLink, if_true, Option.some.injEq]
      constructor
      · intro h; cases h
      · rintro ⟨rfl, h⟩; exact absurd rfl h
    · simp only [truthyLink, hx, if_false, Option.some.injEq]
      constructor
      · rintro rfl; exact ⟨rfl, hx⟩
      · rintro ⟨h, _⟩; exact h

/-- C7 (counterexample): subtopic `(0, 0, 1)` of the sample knowledge base is
in range but has no link; its article view is the text 'Статья не найдена.'
with no keyboard at all, so its last keyboard row is not a Back button. -/
theorem article_view_without_link_has_no_back :
    sendArticleLink sampleKB initialState.userStates 1 (some 0) (some 0) (some 1)
      = Except.ok [Effect.sendMessage 1 "Статья не найдена." Options.empty true] ∧
    (Effect.sendMessage 1 "Статья не найдена." Options.empty true).keyboard = [] ∧
    (Effect.sendMessage 1 "Статья не найдена." Options.empty true).keyboard.getLast?
      ≠ some [callbackButton backLabel ("back_topic_" ++ toString 0)] := by
  decide

/-- C7 (amended): Back buttons walk up the tree within the same section.  For
in-range indices `s, t, u`, the last row of the topics menu of section `s` is
the single Back button `back_main`, which the handler dispatches to
`sendMainMenu`; the last row of the subtopics menu of topic `(s, t)` and, when
subtopic `(s, t, u)` has a non-empty link, of its article view is the single
Back button `back_topic_s`, which the handler decodes to `s` and dispatches to
`sendTopicsMenu(c, s)`. -/
theorem back_buttons_walk_up (js : JSBuiltins) (hjs : js.Canonical) (kb : KnowledgeBase)
    (hkb : kb.withinArrayLimit = true) (userStates : UserStates) (c : ChatId) (qid : String)
    (s t u : Nat) (sec : Section) (topics : List Topic) (topic : Topic)
    (subtopics : List Subtopic) (subtopic : Subtopic) (link : String)
    (hs : kb.sections[s]? = some sec) (ht : sec.topics = some topics)
    (htt : topics[t]? = some topic) (hu : topic.subtopics = some subtopics)
    (huu : subtopics[u]? = some subtopic)
    (hlink : subtopic.link = some link) (hne : link ≠ "") :
    (∃ e, sendTopicsMenu kb userStates c (some s) = [e] ∧
      e.keyboard.getLast? = some [callbackButton backLabel "back_main"]) ∧
    route js "back_main" = Route.mainMenu ∧
    onCallbackQuery js kb userStates ⟨qid, c, "back_main"⟩
      = Except.ok (sendMainMenu kb userStates c) ∧
    (∃ e, sendSubtopicsMenu kb userStates c (some s) (some t) = Except.ok [e] ∧
      e.keyboard.getLast?
        = some [callbackButton backLabel ("back_topic_" ++ toString s)]) ∧
    (∃ e, sendArticleLink kb userStates c (some s) (some t) (some u) = Except.ok [e] ∧
      e.keyboard
        = [[{ text := "Ссылка на статью: " ++ subtopic.title,
              callback_data := none, url := some link }],
           [callbackButton backLabel ("back_topic_" ++ toString s)]] ∧
      e.keyboard.getLast?
        = some [callbackButton backLabel ("back_topic_" ++ toString s)]) ∧
    route js ("back_topic_" ++ toString s) = Route.topicsMenu (some s) ∧
    onCallbackQuery js kb userStates ⟨qid, c, "back_topic_" ++ toString s⟩
      = Except.ok (sendTopicsMenu kb userStates c (some s)) := by
  have hs53 := limit_section kb hkb s sec hs
  have hr := route_back_topic js hjs s hs53
  refine ⟨?_, route_back_main js, ?_, ?_, ?_, hr, ?_⟩
  · rw [sendTopicsMenu_eq kb userStates c s sec topics hs ht (ne_nil_of_getElem? _ _ _ htt)]
    obtain ⟨e, he, hk⟩ := sendOrEditMessage_keyboard userStates c
      ("Выберите тему из раздела \"" ++ sec.name ++ "\":")
      (topicButtons s topics ++ [[callbackButton backLabel "back_main"]])
    exact ⟨e, he, by rw [hk]; simp⟩
  · simp [onCallbackQuery, route_back_main]
  · rw [sendSubtopicsMenu_eq kb userStates c s t sec topics topic subtopics hs ht htt hu
      (ne_nil_of_getElem? _ _ _ huu)]
    obtain ⟨e, he, hk⟩ := sendOrEditMessage_keyboard userStates c
      ("📌 Выберите подтему из темы \"" ++ topic.title ++ "\":")
      (subtopicButtons s t subtopics ++
        [[callbackButton backLabel ("back_topic_" ++ toString s)]])
    exact ⟨e, by rw [he], by rw [hk]; simp⟩
  · have hl : truthyLink subtopic.link = some link :=
      (truthyLink_eq_some _ _).2 ⟨hlink, hne⟩
    rw [sendArticleLink_eq kb userStates c s t u sec topics topic subtopics subtopic
      hs ht htt hu huu, hl]
    obtain ⟨e, he, hk⟩ := sendOrEditMessage_keyboard userStates c "😎 Вот ссылка на статью:"
      [[{ text := "Ссылка на статью: " ++ subtopic.title,
          callback_data := none, url := some link }],
       [callbackButton backLabel ("back_topic_" ++ toString s)]]
    exact ⟨e, by simp [he], hk, by rw [hk]; rfl⟩
  · simp [onCallbackQuery, hr]

/-- Witness of C7 (amended) on the sample knowledge base at indices
`(0, 0, 0)`, whose subtopic links to `https://example.org/s`. -/
theorem back_buttons_walk_up_witness :
    (∃ e, sendTopicsMenu sampleKB initialState.userStates 5 (some 0) = [e] ∧
      e.keyboard.getLast? = some [callbackButton backLabel "back_main"]) ∧
    route decimalBuiltins "back_main" = Route.mainMenu ∧
    onCallbackQuery decimalBuiltins sampleKB initialState.userStates ⟨"q", 5, "back_main"⟩
      = Except.ok (sendMainMenu sampleKB initialState.userStates 5) ∧
    (∃ e, sendSubtopicsMenu sampleKB initialState.userStates 5 (some 0) (some 0)
        = Except.ok [e] ∧
      e.keyboard.getLast?
        = some [callbackButton backLabel ("back_topic_" ++ toString 0)]) ∧
    (∃ e, sendArticleLink sampleKB initialState.userStates 5 (some 0) (some 0) (some 0)
        = Except.ok [e] ∧
      e.keyboard
        = [[{ text := "Ссылка на статью: " ++ "S",
              callback_data := none, url := some "https://example.org/s" }],
           [callbackButton backLabel ("back_topic_" ++ toString 0)]] ∧
      e.keyboard.getLast?
        = some [callbackButton backLabel ("back_topic_" ++ toString 0)]) ∧
    route decimalBuiltins ("back_topic_" ++ toString 0) = Route.topicsMenu (some 0) ∧
    onCallbackQuery decimalBuiltins sampleKB initialState.userStates
        ⟨"q", 5, "back_topic_" ++ toString 0⟩
      = Except.ok (sendTopicsMenu sampleKB initialState.userStates 5 (some 0)) :=
  back_buttons_walk_up decimalBuiltins decimalBuiltins_canonical sampleKB (by decide)
    initialState.userStates 5 "q" 0 0 0 _ _ _ _
    { title := "S", link := some "https://example.org/s" } "https://example.org/s"
    rfl rfl rfl rfl rfl rfl (by decide)

/-- C9 (failing input): on the sample knowledge base, which has one section,
`sendArticleLink(c, 5, 0, 0)` throws a `TypeError` instead of answering
'Статья не найдена.'; so does the handler on `subtopic_0_0_0` when the
knowledge base is empty. -/
theorem sendArticleLink_out_of_range_throws :
    sendArticleLink sampleKB initialState.userStates 1 (some 5) (some 0) (some 0)
      = Except.error JSError.typeError ∧
    sendArticleLink sampleKB initialState.userStates 1 (some 0) (some 3) (some 0)
      = Except.error JSError.typeError ∧
    onCallbackQuery decimalBuiltins emptyKB initialState.userStates ⟨"q", 1, "subtopic_0_0_0"⟩
      = Except.error JSError.typeError := by
  decide

/-- In-range behaviour of `sendArticleLink`: when section `s` and topic
`(s, t)` exist and carry their arrays, `sendArticleLink` returns; it answers
'Статья не найдена.' exactly when there is no subtopic `u` or it has no
non-empty link, and otherwise shows the link keyboard whose first button opens
the link. -/
theorem sendArticleLink_in_range (kb : KnowledgeBase) (userStates : UserStates) (c : ChatId)
    (s t : Nat) (ui : JSNum) (sec : Section) (topics : List Topic) (topic : Topic)
    (subtopics : List Subtopic) (hs : kb.sections[s]? = some sec)
    (ht : sec.topics = some topics) (htt : topics[t]? = some topic)
    (hu : topic.subtopics = some subtopics) :
    ((¬ ∃ u subtopic link, ui = some u ∧ subtopics[u]? = some subtopic ∧
        subtopic.link = some link ∧ link ≠ "") →
      sendArticleLink kb userStates c (some s) (some t) ui
        = Except.ok (sendOrEditMessage userStates c "Статья не найдена." Options.empty)) ∧
    (∀ u subtopic link, ui = some u → subtopics[u]? = some subtopic →
      subtopic.link = some link → link ≠ "" →
      ∃ e, sendArticleLink kb userStates c (some s) (some t) ui = Except.ok [e] ∧
        e.keyboard.head? = some [{ text := "Ссылка на статью: " ++ subtopic.title,
                                   callback_data := none, url := some link }]) := by
  constructor
  · intro h
    simp only [sendArticleLink, elem?_some _ _ _ hs, ht, elem?_some _ _ _ htt, hu]
    cases he : elem? subtopics ui with
    | none => rfl
    | some p =>
      obtain ⟨u, subtopic⟩ := p
      obtain ⟨hui, hsub⟩ := elem?_eq_some _ _ _ _ he
      cases hl : truthyLink subtopic.link with
      | none => simp [hl]
      | some link =>
        obtain ⟨hlink, hne⟩ := (truthyLink_eq_some _ _).1 hl
        exact absurd ⟨u, subtopic, link, hui, hsub, hlink, hne⟩ h
  · intro u subtopic link hui hsub hlink hne
    have hl : truthyLink subtopic.link = some link :=
      (truthyLink_eq_some _ _).2 ⟨hlink, hne⟩
    subst hui
    rw [sendArticleLink_eq kb userStates c s t u sec topics topic subtopics subtopic
      hs ht htt hu hsub, hl]
    obtain ⟨e, he, hk⟩ := sendOrEditMessage_keyboard userStates c "😎 Вот ссылка на статью:"
      [[{ text := "Ссылка на статью: " ++ subtopic.title,
          callback_data := none, url := some link }],
       [callbackButton backLabel ("back_topic_" ++ toString s)]]
    exact ⟨e, by simp [he], by rw [hk]; rfl⟩

/-! ## Every branch of the handler -/

theorem sendMainMenu_cases (kb : KnowledgeBase) (userStates : UserStates) (c : ChatId) :
    (kb.sections = [] ∧ sendMainMenu kb userStates c
      = [Effect.sendMessage c "В базе знаний пока нет разделов." Options.empty false]) ∨
    (kb.sections ≠ [] ∧ ∃ text options,
      sendMainMenu kb userStates c = sendOrEditMessage userStates c text options) := by
  by_cases h : kb.sections = []
  · left; exact ⟨h, by simp [sendMainMenu, h]⟩
  · right; exact ⟨h, _, _, sendMainMenu_eq kb userStates c h⟩

theorem sendTopicsMenu_cases (kb : KnowledgeBase) (userStates : UserStates) (c : ChatId)
    (si : JSNum) :
    ∃ text options, sendTopicsMenu kb userStates c si
      = sendOrEditMessage userStates c text options := by
  unfold sendTopicsMenu
  cases elem? kb.sections si with
  | none => exact ⟨_, _, rfl⟩
  | some p =>
    obtain ⟨s, sec⟩ := p
    cases ht : sec.topics with
    | none => simp only [ht]; exact ⟨_, _, rfl⟩
    | some topics =>
      simp only [ht]
      by_cases h0 : topics.length = 0
      · simp only [h0, if_true]; exact ⟨_, _, rfl⟩
      · simp only [h0, if_false]; exact ⟨_, _, rfl⟩

theorem sendSubtopicsMenu_cases (kb : KnowledgeBase) (userStates : UserStates) (c : ChatId)
    (si ti : JSNum) :
    sendSubtopicsMenu kb userStates c si ti = Except.error JSError.typeError ∨
    ∃ text options, sendSubtopicsMenu kb userStates c si ti
      = Except.ok (sendOrEditMessage userStates c text options) := by
  unfold sendSubtopicsMenu
  cases elem? kb.sections si with
  | none => left; rfl
  | some p =>
    obtain ⟨s, sec⟩ := p
    cases ht : sec.topics with
    | none => left; simp only [ht]
    | some topics =>
      right
      simp only [ht]
      cases elem? topics ti with
      | none => exact ⟨_, _, rfl⟩
      | some p2 =>
        obtain ⟨t, topic⟩ := p2
        cases hu : topic.subtopics with
        | none => simp only [hu]; exact ⟨_, _, rfl⟩
        | some subtopics =>
          simp only [hu]
          by_cases h0 : subtopics.length = 0
          · simp only [h0, if_true]; exact ⟨_, _, rfl⟩
          · simp only [h0, if_false]; exact ⟨_, _, rfl⟩

theorem sendArticleLink_cases (kb : KnowledgeBase) (userStates : UserStates) (c : ChatId)
    (si ti ui : JSNum) :
    sendArticleLink kb userStates c si ti ui = Except.error JSError.typeError ∨
    ∃ text options, sendArticleLink kb userStates c si ti ui
      = Except.ok (sendOrEditMessage userStates c text options) := by
  unfold sendArticleLink
  cases elem? kb.sections si with
  | none => left; rfl
  | some p =>
    obtain ⟨s, sec⟩ := p
    cases ht : sec.topics with
    | none => left; simp only [ht]
    | some topics =>
      simp only [ht]
      cases elem? topics ti with
      | none => left; rfl
      | some p2 =>
        obtain ⟨t, topic⟩ := p2
        cases hu : topic.subtopics with
        | none => left; simp only [hu]
        | some subtopics =>
          right
          simp only [hu]
          cases elem? subtopics ui with
          | none => exact ⟨_, _, rfl⟩
          | some p3 =>
            obtain ⟨u, subtopic⟩ := p3
            cases hl : truthyLink subtopic.link with
            | none => simp only [hl]; exact ⟨_, _, rfl⟩
            | some link => simp only [hl]; exact ⟨_, _, rfl⟩

theorem route_unknown_iff (js : JSBuiltins) (data : String) :
    route js data = Route.unknown ↔ isRecognised data = false := by
  unfold route isRecognised
  split_ifs <;> simp_all

theorem onCallbackQuery_cases (js : JSBuiltins) (kb : KnowledgeBase) (userStates : UserStates)
    (q : CallbackQuery) :
    onCallbackQuery js kb userStates q = Except.error JSError.typeError ∨
    (∃ text options, onCallbackQuery js kb userStates q
      = Except.ok (sendOrEditMessage userStates q.chatId text options)) ∨
    (isRecognised q.data = false ∧ onCallbackQuery js kb userStates q
      = Except.ok [Effect.answerCallbackQuery q.id unknownRequest true]) ∨
    (kb.sections = [] ∧ onCallbackQuery js kb userStates q
      = Except.ok [Effect.sendMessage q.chatId "В базе знаний пока нет разделов."
          Options.empty false]) := by
  unfold onCallbackQuery
  cases hr : route js q.data with
  | mainMenu =>
    rcases sendMainMenu_cases kb userStates q.chatId with ⟨h, he⟩ | ⟨_, text, o, he⟩
    · right; right; right; exact ⟨h, by simp only [he]⟩
    · right; left; exact ⟨text, o, by simp only [he]⟩
  | topicsMenu s =>
    obtain ⟨text, o, he⟩ := sendTopicsMenu_cases kb userStates q.chatId s
    right; left; exact ⟨text, o, by simp only [he]⟩
  | subtopicsMenu s t =>
    rcases sendSubtopicsMenu_cases kb userStates q.chatId s t with he | ⟨text, o, he⟩
    · left; exact he
    · right; left; exact ⟨text, o, he⟩
  | articleLink s t u =>
    rcases sendArticleLink_cases kb userStates q.chatId s t u with he | ⟨text, o, he⟩
    · left; exact he
    · right; left; exact ⟨text, o, he⟩
  | unknown =>
    right; right; left
    exact ⟨(route_unknown_iff js q.data).1 hr, rfl⟩

theorem sendOrEditMessage_not_answer (userStates : UserStates) (c : ChatId) (text : String)
    (options : Options) :
    ∀ e ∈ sendOrEditMessage userStates c text options,
      e.isAnswer = false ∧ e.isWrite = false := by
  intro e he
  rcases sendOrEditMessage_cases userStates c text options with ⟨m, _, _, h⟩ | ⟨_, h⟩ <;>
  · rw [h] at he
    simp only [List.mem_singleton] at he
    subst he
    exact ⟨rfl, rfl⟩

/-- C8: unknown callback data is rejected without navigating.  When the data
is neither `back_main` nor starts with `back_section_`, `back_topic_`,
`section_`, `topic_` or `subtopic_`, the handler makes the single call
`answerCallbackQuery(id, {text: 'Неизвестный запрос', show_alert: true})`, so
no `sendMessage` and no `editMessageText`, and the state is unchanged; for all
other data no call of the handler is `answerCallbackQuery`. -/
theorem unknown_callback_rejected (js : JSBuiltins) (kb : KnowledgeBase) (st : BotState)
    (q : CallbackQuery) :
    (isRecognised q.data = false →
      onCallbackQuery js kb st.userStates q
        = Except.ok [Effect.answerCallbackQuery q.id unknownRequest true] ∧
      step js kb st (Event.callbackQuery q)
        = (st, [Effect.answerCallbackQuery q.id unknownRequest true])) ∧
    (isRecognised q.data = true →
      (∀ effects, onCallbackQuery js kb st.userStates q = Except.ok effects →
        ∀ e ∈ effects, e.isAnswer = false) ∧
      ∀ e ∈ (step js kb st (Event.callbackQuery q)).2, e.isAnswer = false) := by
  constructor
  · intro h
    have hr := (route_unknown_iff js q.data).2 h
    have hq : onCallbackQuery js kb st.userStates q
        = Except.ok [Effect.answerCallbackQuery q.id unknownRequest true] := by
      simp [onCallbackQuery, hr]
    exact ⟨hq, by simp [step, hq]⟩
  · intro h
    have key : ∀ effects, onCallbackQuery js kb st.userStates q = Except.ok effects →
        ∀ e ∈ effects, e.isAnswer = false := by
      intro effects heff e he
      rcases onCallbackQuery_cases js kb st.userStates q with
        h1 | ⟨text, o, h1⟩ | ⟨h0, _⟩ | ⟨_, h1⟩
      · rw [h1] at heff; cases heff
      · rw [h1] at heff
        cases heff
        exact (sendOrEditMessage_not_answer _ _ _ _ e he).1
      · rw [h] at h0; cases h0
      · rw [h1] at heff
        cases heff
        simp only [List.mem_singleton] at he
        subst he
        rfl
    refine ⟨key, ?_⟩
    intro e he
    simp only [step] at he
    cases hq : onCallbackQuery js kb st.userStates q with
    | error err => simp [hq] at he
    | ok effects =>
      simp only [hq] at he
      exact key effects hq e he

/-- Witness of C8: `hello` is rejected, `section_0` is not answered with an
alert. -/
theorem unknown_callback_rejected_witness :
    (onCallbackQuery decimalBuiltins sampleKB initialState.userStates ⟨"q", 1, "hello"⟩
        = Except.ok [Effect.answerCallbackQuery "q" unknownRequest true] ∧
      step decimalBuiltins sampleKB initialState (Event.callbackQuery ⟨"q", 1, "hello"⟩)
        = (initialState, [Effect.answerCallbackQuery "q" unknownRequest true])) ∧
    ((∀ effects, onCallbackQuery decimalBuiltins sampleKB initialState.userStates
          ⟨"q", 1, "section_0"⟩ = Except.ok effects →
        ∀ e ∈ effects, e.isAnswer = false) ∧
      ∀ e ∈ (step decimalBuiltins sampleKB initialState
          (Event.callbackQuery ⟨"q", 1, "section_0"⟩)).2, e.isAnswer = false) :=
  ⟨(unknown_callback_rejected decimalBuiltins sampleKB initialState ⟨"q", 1, "hello"⟩).1
      (by decide),
   (unknown_callback_rejected decimalBuiltins sampleKB initialState ⟨"q", 1, "section_0"⟩).2
      (by decide)⟩

/-! ## What the rendered buttons carry -/

theorem mem_sendOrEditMessage_keyboard (userStates : UserStates) (c : ChatId) (text : String)
    (rows : List (List InlineKeyboardButton)) (e : Effect)
    (he : e ∈ sendOrEditMessage userStates c text (Options.keyboard rows)) :
    e.keyboard = rows := by
  obtain ⟨e1, h1, hk⟩ := sendOrEditMessage_keyboard userStates c text rows
  rw [h1] at he
  simp only [List.mem_singleton] at he
  rw [he, hk]

theorem mem_sendOrEditMessage_empty (userStates : UserStates) (c : ChatId) (text : String)
    (e : Effect) (he : e ∈ sendOrEditMessage userStates c text Options.empty) (d : String) :
    ¬ e.offers d := by
  obtain ⟨e1, h1, hk⟩ := sendOrEditMessage_empty_keyboard userStates c text
  rw [h1] at he
  simp only [List.mem_singleton] at he
  rintro ⟨row, hrow, _⟩
  rw [he, hk] at hrow
  simp at hrow

theorem offers_back_row (rows : List (List InlineKeyboardButton)) (back : String)
    (e : Effect) (d : String) (hk : e.keyboard = rows ++ [[callbackButton backLabel back]])
    (h : e.offers d) : d = back ∨ ∃ row ∈ rows, ∃ b ∈ row, b.callback_data = some d := by
  obtain ⟨row, hrow, b, hb, hd⟩ := h
  rw [hk, List.mem_append] at hrow
  rcases hrow with hrow | hrow
  · exact Or.inr ⟨row, hrow, b, hb, hd⟩
  · left
    simp only [List.mem_singleton] at hrow
    subst hrow
    simp only [List.mem_singleton] at hb
    subst hb
    simpa [callbackButton] using hd.symm

theorem offers_main (kb : KnowledgeBase) (userStates : UserStates) (c : ChatId) (e : Effect)
    (d : String) (he : e ∈ sendMainMenu kb userStates c) (h : e.offers d) :
    ∃ (s : Nat) (sec : Section), kb.sections[s]? = some sec ∧ d = "section_" ++ toString s := by
  rcases sendMainMenu_cases kb userStates c with ⟨_, h1⟩ | ⟨hne, _⟩
  · rw [h1] at he
    simp only [List.mem_singleton] at he
    subst he
    obtain ⟨row, hrow, _⟩ := h
    simp [Effect.keyboard, Options.empty] at hrow
  · rw [sendMainMenu_eq kb userStates c hne] at he
    have hk := mem_sendOrEditMessage_keyboard _ _ _ _ e he
    obtain ⟨row, hrow, b, hb, hd⟩ := h
    rw [hk, sectionButtons, List.mem_mapIdx] at hrow
    obtain ⟨s, hs, rfl⟩ := hrow
    simp only [List.mem_singleton] at hb
    subst hb
    refine ⟨s, kb.sections[s], List.getElem?_eq_getElem hs, ?_⟩
    simpa [callbackButton] using hd.symm

theorem offers_topics (kb : KnowledgeBase) (userStates : UserStates) (c : ChatId)
    (si : JSNum) (e : Effect) (d : String) (he : e ∈ sendTopicsMenu kb userStates c si)
    (h : e.offers d) :
    ∃ (s : Nat) (sec : Section) (topics : List Topic), kb.sections[s]? = some sec ∧
      sec.topics = some topics ∧
      (d = "back_main" ∨
       ∃ (t : Nat) (topic : Topic), topics[t]? = some topic ∧
         d = "topic_" ++ toString s ++ "_" ++ toString t) := by
  unfold sendTopicsMenu at he
  cases hel : elem? kb.sections si with
  | none =>
    simp only [hel] at he
    exact absurd h (mem_sendOrEditMessage_empty _ _ _ e he d)
  | some p =>
    obtain ⟨s, sec⟩ := p
    obtain ⟨_, hs⟩ := elem?_eq_some _ _ _ _ hel
    simp only [hel] at he
    cases ht : sec.topics with
    | none =>
      simp only [ht] at he
      exact absurd h (mem_sendOrEditMessage_empty _ _ _ e he d)
    | some topics =>
      simp only [ht] at he
      by_cases h0 : topics.length = 0
      · simp only [h0, if_true] at he
        exact absurd h (mem_sendOrEditMessage_empty _ _ _ e he d)
      · simp only [h0, if_false] at he
        have hk := mem_sendOrEditMessage_keyboard _ _ _ _ e he
        refine ⟨s, sec, topics, hs, ht, ?_⟩
        rcases offers_back_row _ _ e d hk h with hd | ⟨row, hrow, b, hb, hd⟩
        · exact Or.inl hd
        · right
          rw [topicButtons, List.mem_mapIdx] at hrow
          obtain ⟨t, htl, rfl⟩ := hrow
          simp only [List.mem_singleton] at hb
          subst hb
          exact ⟨t, topics[t], List.getElem?_eq_getElem htl,
            by simpa [callbackButton] using hd.symm⟩

theorem offers_subtopics (kb : KnowledgeBase) (userStates : UserStates) (c : ChatId)
    (si ti : JSNum) (effects : List Effect) (e : Effect) (d : String)
    (heq : sendSubtopicsMenu kb userStates c si ti = Except.ok effects) (he : e ∈ effects)
    (h : e.offers d) :
    ∃ (s t : Nat) (sec : Section) (topics : List Topic) (topic : Topic)
      (subtopics : List Subtopic), kb.sections[s]? = some sec ∧ sec.topics = some topics ∧
      topics[t]? = some topic ∧ topic.subtopics = some subtopics ∧
      (d = "back_topic_" ++ toString s ∨
       ∃ (u : Nat) (subtopic : Subtopic), subtopics[u]? = some subtopic ∧
         d = "subtopic_" ++ toString s ++ "_" ++ toString t ++ "_" ++ toString u) := by
  unfold sendSubtopicsMenu at heq
  cases hel : elem? kb.sections si with
  | none => simp [hel] at heq
  | some p =>
    obtain ⟨s, sec⟩ := p
    obtain ⟨_, hs⟩ := elem?_eq_some _ _ _ _ hel
    simp only [hel] at heq
    cases ht : sec.topics with
    | none => simp [ht] at heq
    | some topics =>
      simp only [ht] at heq
      cases hel2 : elem? topics ti with
      | none =>
        simp only [hel2, Except.ok.injEq] at heq
        subst heq
        exact absurd h (mem_sendOrEditMessage_empty _ _ _ e he d)
      | some p2 =>
        obtain ⟨t, topic⟩ := p2
        obtain ⟨_, htt⟩ := elem?_eq_some _ _ _ _ hel2
        simp only [hel2] at heq
        cases hu : topic.subtopics with
        | none =>
          simp only [hu, Except.ok.injEq] at heq
          subst heq
          exact absurd h (mem_sendOrEditMessage_empty _ _ _ e he d)
        | some subtopics =>
          simp only [hu] at heq
          by_cases h0 : subtopics.length = 0
          · simp only [h0, if_true, Except.ok.injEq] at heq
            subst heq
            exact absurd h (mem_sendOrEditMessage_empty _ _ _ e he d)
          · simp only [h0, if_false, Except.ok.injEq] at heq
            subst heq
            have hk := mem_sendOrEditMessage_keyboard _ _ _ _ e he
            refine ⟨s, t, sec, topics, topic, subtopics, hs, ht, htt, hu, ?_⟩
            rcases offers_back_row _ _ e d hk h with hd | ⟨row, hrow, b, hb, hd⟩
            · exact Or.inl hd
            · right
              rw [subtopicButtons, List.mem_mapIdx] at hrow
              obtain ⟨u, hul, rfl⟩ := hrow
              simp only [List.mem_singleton] at hb
              subst hb
              exact ⟨u, subtopics[u], List.getElem?_eq_getElem hul,
                by simpa [callbackButton] using hd.symm⟩

theorem offers_article (kb : KnowledgeBase) (userStates : UserStates) (c : ChatId)
    (si ti ui : JSNum) (effects : List Effect) (e : Effect) (d : String)
    (heq : sendArticleLink kb userStates c si ti ui = Except.ok effects) (he : e ∈ effects)
    (h : e.offers d) :
    ∃ (s : Nat) (sec : Section), kb.sections[s]? = some sec ∧ d = "back_topic_" ++ toString s := by
  unfold sendArticleLink at heq
  cases hel : elem? kb.sections si with
  | none => simp [hel] at heq
  | some p =>
    obtain ⟨s, sec⟩ := p
    obtain ⟨_, hs⟩ := elem?_eq_some _ _ _ _ hel
    simp only [hel] at heq
    cases ht : sec.topics with
    | none => simp [ht] at heq
    | some topics =>
      simp only [ht] at heq
      cases hel2 : elem? topics ti with
      | none => simp [hel2] at heq
      | some p2 =>
        obtain ⟨t, topic⟩ := p2
        simp only [hel2] at heq
        cases hu : topic.subtopics with
        | none => simp [hu] at heq
        | some subtopics =>
          simp only [hu] at heq
          cases hel3 : elem? subtopics ui with
          | none =>
            simp only [hel3, Except.ok.injEq] at heq
            subst heq
            exact absurd h (mem_sendOrEditMessage_empty _ _ _ e he d)
          | some p3 =>
            obtain ⟨u, subtopic⟩ := p3
            simp only [hel3] at heq
            cases hl : truthyLink subtopic.link with
            | none =>
              simp only [hl, Except.ok.injEq] at heq
              subst heq
              exact absurd h (mem_sendOrEditMessage_empty _ _ _ e he d)
            | some link =>
              simp only [hl, Except.ok.injEq] at heq
              subst heq
              have hk := mem_sendOrEditMessage_keyboard _ _ _ _ e he
              refine ⟨s, sec, hs, ?_⟩
              rcases offers_back_row _ _ e d hk h with hd | ⟨row, hrow, b, hb, hd⟩
              · exact hd
              · simp only [List.mem_singleton] at hrow
                subst hrow
                simp only [List.mem_singleton] at hb
                subst hb
                simp at hd

theorem sendOrEditMessage_length (userStates : UserStates) (c : ChatId) (text : String)
    (options : Options) : (sendOrEditMessage userStates c text options).length = 1 := by
  rcases sendOrEditMessage_cases userStates c text options with ⟨m, _, _, h⟩ | ⟨_, h⟩ <;>
  · rw [h]; rfl

theorem sendSubtopicsMenu_ok (kb : KnowledgeBase) (userStates : UserStates) (c : ChatId)
    (s : Nat) (ti : JSNum) (sec : Section) (topics : List Topic)
    (hs : kb.sections[s]? = some sec) (ht : sec.topics = some topics) :
    ∃ text options, sendSubtopicsMenu kb userStates c (some s) ti
      = Except.ok (sendOrEditMessage userStates c text options) := by
  rcases sendSubtopicsMenu_cases kb userStates c (some s) ti with h | h
  · exfalso
    simp only [sendSubtopicsMenu, elem?_some _ _ _ hs, ht] at h
    cases hel : elem? topics ti with
    | none => simp [hel] at h
    | some p =>
      obtain ⟨t, topic⟩ := p
      simp only [hel] at h
      cases hu : topic.subtopics with
      | none => simp [hu] at h
      | some subtopics =>
        simp only [hu] at h
        by_cases h0 : subtopics.length = 0 <;> simp [h0] at h
  · exact h

theorem sendArticleLink_ok (kb : KnowledgeBase) (userStates : UserStates) (c : ChatId)
    (s t : Nat) (ui : JSNum) (sec : Section) (topics : List Topic) (topic : Topic)
    (subtopics : List Subtopic) (hs : kb.sections[s]? = some sec)
    (ht : sec.topics = some topics) (htt : topics[t]? = some topic)
    (hu : topic.subtopics = some subtopics) :
    ∃ text options, sendArticleLink kb userStates c (some s) (some t) ui
      = Except.ok (sendOrEditMessage userStates c text options) := by
  rcases sendArticleLink_cases kb userStates c (some s) (some t) ui with h | h
  · exfalso
    simp only [sendArticleLink, elem?_some _ _ _ hs, ht, elem?_some _ _ _ htt, hu] at h
    cases hel : elem? subtopics ui with
    | none => simp [hel] at h
    | some p =>
      obtain ⟨u, subtopic⟩ := p
      simp only [hel] at h
      cases hl : truthyLink subtopic.link <;> simp [hl] at h
  · exact h

/-- C10: buttons the bot itself rendered are safe to press.  For every
knowledge base within the array limit and every callback data carried by a
button of a keyboard built by `sendMainMenu`, `sendTopicsMenu`,
`sendSubtopicsMenu` or `sendArticleLink`, the handler given that data does not
throw and what it does is exactly one call of `sendOrEditMessage` (which makes
one transport call). -/
theorem rendered_buttons_safe (js : JSBuiltins) (hjs : js.Canonical) (kb : KnowledgeBase)
    (hkb : kb.withinArrayLimit = true) (d : String) (hd : Rendered kb d)
    (userStates : UserStates) (c : ChatId) (qid : String) :
    ∃ text options,
      onCallbackQuery js kb userStates ⟨qid, c, d⟩
        = Except.ok (sendOrEditMessage userStates c text options) ∧
      (sendOrEditMessage userStates c text options).length = 1 := by
  have section_case : ∀ (s : Nat) (sec : Section), kb.sections[s]? = some sec →
      ∀ d1, (d1 = "section_" ++ toString s ∨ d1 = "back_topic_" ++ toString s) →
      ∃ text options, onCallbackQuery js kb userStates ⟨qid, c, d1⟩
        = Except.ok (sendOrEditMessage userStates c text options) := by
    intro s sec hs d1 hd1
    have hs53 := limit_section kb hkb s sec hs
    obtain ⟨text, o, he⟩ := sendTopicsMenu_cases kb userStates c (some s)
    have hr : route js d1 = Route.topicsMenu (some s) := by
      rcases hd1 with rfl | rfl
      · exact route_section js hjs s hs53
      · exact route_back_topic js hjs s hs53
    exact ⟨text, o, by simp [onCallbackQuery, hr, he]⟩
  have key : ∃ text options, onCallbackQuery js kb userStates ⟨qid, c, d⟩
      = Except.ok (sendOrEditMessage userStates c text options) := by
    obtain ⟨us0, c0, h | h | h | h⟩ := hd
    · obtain ⟨e, he, ho⟩ := h
      obtain ⟨s, sec, hs, rfl⟩ := offers_main kb us0 c0 e d he ho
      exact section_case s sec hs _ (Or.inl rfl)
    · obtain ⟨si, e, he, ho⟩ := h
      obtain ⟨s, sec, topics, hs, ht, hd1 | ⟨t, topic, htt, rfl⟩⟩ :=
        offers_topics kb us0 c0 si e d he ho
      · subst hd1
        exact ⟨"📎Выберите необходимый раздел:", Options.keyboard (sectionButtons kb.sections), by
          simp [onCallbackQuery, route_back_main,
            sendMainMenu_eq kb userStates c (ne_nil_of_getElem? _ _ _ hs)]⟩
      · have hr := route_topic js hjs s t (limit_section kb hkb s sec hs)
          (limit_topic kb hkb s t sec topics topic hs ht htt)
        obtain ⟨text, o, he1⟩ := sendSubtopicsMenu_ok kb userStates c s (some t) sec topics hs ht
        exact ⟨text, o, by simp [onCallbackQuery, hr, he1]⟩
    · obtain ⟨si, ti, effects, heq, e, he, ho⟩ := h
      obtain ⟨s, t, sec, topics, topic, subtopics, hs, ht, htt, hu,
          hd1 | ⟨u, subtopic, huu, rfl⟩⟩ :=
        offers_subtopics kb us0 c0 si ti effects e d heq he ho
      · exact section_case s sec hs _ (Or.inr hd1)
      · have hr := route_subtopic js hjs s t u (limit_section kb hkb s sec hs)
          (limit_topic kb hkb s t sec topics topic hs ht htt)
          (limit_subtopic kb hkb s t u sec topics topic subtopics subtopic hs ht htt hu huu)
        obtain ⟨text, o, he1⟩ :=
          sendArticleLink_ok kb userStates c s t (some u) sec topics topic subtopics hs ht htt hu
        exact ⟨text, o, by simp [onCallbackQuery, hr, he1]⟩
    · obtain ⟨si, ti, ui, effects, heq, e, he, ho⟩ := h
      obtain ⟨s, sec, hs, hd1⟩ := offers_article kb us0 c0 si ti ui effects e d heq he ho
      exact section_case s sec hs _ (Or.inr hd1)
  obtain ⟨text, o, h⟩ := key
  exact ⟨text, o, h, sendOrEditMessage_length _ _ _ _⟩

/-- Witness of C10: `topic_0_0` is on the topics menu of the sample knowledge
base. -/
theorem rendered_buttons_safe_witness :
    ∃ text options,
      onCallbackQuery decimalBuiltins sampleKB initialState.userStates ⟨"q", 1, "topic_0_0"⟩
        = Except.ok (sendOrEditMessage initialState.userStates 1 text options) ∧
      (sendOrEditMessage initialState.userStates 1 text options).length = 1 :=
  rendered_buttons_safe decimalBuiltins decimalBuiltins_canonical sampleKB (by decide)
    "topic_0_0"
    ⟨initialState.userStates, 1, Or.inr (Or.inl ⟨some 0, _, List.mem_singleton.2 rfl,
      [callbackButton "T" "topic_0_0"], by decide, callbackButton "T" "topic_0_0",
      by decide, rfl⟩)⟩
    initialState.userStates 1 "q"

/-! ## The state machine -/

theorem onSendResolved_other (st : BotState) (c d : ChatId) (result : Option Int)
    (hcd : c ≠ d) : (onSendResolved st c result).userStates d = st.userStates d := by
  unfold onSendResolved
  cases result with
  | none => rfl
  | some m =>
    cases h : st.userStates c with
    | none => rfl
    | some u =>
      simp only [setUserState]
      rw [if_neg (fun e => hcd e.symm)]

theorem onSendResolved_statistics (st : BotState) (c : ChatId) (result : Option Int) :
    (onSendResolved st c result).statistics = st.statistics := by
  unfold onSendResolved
  cases result with
  | none => rfl
  | some m =>
    cases h : st.userStates c with
    | none => rfl
    | some u => rfl

theorem step_callbackQuery_state (js : JSBuiltins) (kb : KnowledgeBase) (st : BotState)
    (q : CallbackQuery) : (step js kb st (Event.callbackQuery q)).1 = st := by
  simp only [step]
  cases onCallbackQuery js kb st.userStates q <;> rfl

theorem onStart_other (kb : KnowledgeBase) (st : BotState) (c d : ChatId) (hcd : c ≠ d) :
    (onStart kb st c).1.userStates d = st.userStates d := by
  simp only [onStart, setUserState]
  rw [if_neg (fun e => hcd e.symm)]

theorem onStart_self (kb : KnowledgeBase) (st : BotState) (c : ChatId) :
    (onStart kb st c).1.userStates c = some freshUserState := by
  simp [onStart, setUserState]

/-- C6: UI state is isolated per chat.  For distinct chats `c` and `d`, a
`/start` in `c`, a callback query of `c` and the settling of a send to `c`
each leave `userStates[d]` unchanged; `/start` in `c` sets `userStates[c]` to
exactly `{level: 'main', data: null, messageId: null}`. -/
theorem ui_state_isolated (js : JSBuiltins) (kb : KnowledgeBase) (st : BotState)
    (c d : ChatId) (hcd : c ≠ d) :
    (step js kb st (Event.start c)).1.userStates d = st.userStates d ∧
    (∀ qid data,
      (step js kb st (Event.callbackQuery ⟨qid, c, data⟩)).1.userStates d = st.userStates d) ∧
    (∀ result,
      (step js kb st (Event.sendResolved c result)).1.userStates d = st.userStates d) ∧
    (step js kb st (Event.start c)).1.userStates c
      = some { level := "main", data := none, messageId := none } := by
  refine ⟨onStart_other kb st c d hcd, ?_, ?_, onStart_self kb st c⟩
  · intro qid data
    rw [step_callbackQuery_state]
  · intro result
    exact onSendResolved_other st c d result hcd

/-- Witness of C6 with `c = 1`, `d = 2` from the initial state. -/
theorem ui_state_isolated_witness :
    (step decimalBuiltins sampleKB initialState (Event.start 1)).1.userStates 2
      = initialState.userStates 2 ∧
    (∀ qid data,
      (step decimalBuiltins sampleKB initialState
        (Event.callbackQuery ⟨qid, 1, data⟩)).1.userStates 2 = initialState.userStates 2) ∧
    (∀ result,
      (step decimalBuiltins sampleKB initialState
        (Event.sendResolved 1 result)).1.userStates 2 = initialState.userStates 2) ∧
    (step decimalBuiltins sampleKB initialState (Event.start 1)).1.userStates 1
      = some { level := "main", data := none, messageId := none } :=
  ui_state_isolated decimalBuiltins sampleKB initialState 1 2 (by decide)

theorem sendMainMenu_no_write (kb : KnowledgeBase) (userStates : UserStates) (c : ChatId) :
    (sendMainMenu kb userStates c).filter Effect.isWrite = [] := by
  rw [List.filter_eq_nil_iff]
  intro e he
  rcases sendMainMenu_cases kb userStates c with ⟨_, h⟩ | ⟨_, text, o, h⟩
  · rw [h] at he
    simp only [List.mem_singleton] at he
    subst he
    simp [Effect.isWrite]
  · rw [h] at he
    simp [(sendOrEditMessage_not_answer _ _ _ _ e he).2]

theorem step_start_writes (js : JSBuiltins) (kb : KnowledgeBase) (st : BotState) (c : ChatId) :
    (step js kb st (Event.start c)).2.filter Effect.isWrite
      = [Effect.writeStatistics (step js kb st (Event.start c)).1.statistics] := by
  simp only [step, onStart, List.filter_append, sendMainMenu_no_write]
  simp [List.filter, Effect.isWrite]

theorem step_callbackQuery_no_write (js : JSBuiltins) (kb : KnowledgeBase) (st : BotState)
    (q : CallbackQuery) : (step js kb st (Event.callbackQuery q)).2.filter Effect.isWrite = [] := by
  rw [List.filter_eq_nil_iff]
  intro e he
  simp only [step] at he
  rcases onCallbackQuery_cases js kb st.userStates q with
    h1 | ⟨text, o, h1⟩ | ⟨_, h1⟩ | ⟨_, h1⟩
  · simp [h1] at he
  · simp only [h1] at he
    simp [(sendOrEditMessage_not_answer _ _ _ _ e he).2]
  · simp only [h1, List.mem_singleton] at he
    subst he
    simp [Effect.isWrite]
  · simp only [h1, List.mem_singleton] at he
    subst he
    simp [Effect.isWrite]

theorem jsAddOne_exact (x : Nat) (h : x < 2 ^ 53) : jsAddOne x = x + 1 := by
  unfold jsAddOne
  rw [if_pos h]

/-- C5 (counterexample): with `start_command_count = 2 ^ 53` loaded, one
`/start` leaves the counter at `2 ^ 53`, not at the loaded value plus one. -/
theorem start_count_saturates :
    (run decimalBuiltins sampleKB saturatedState [Event.start 1]).1.statistics.start_command_count
      = 2 ^ 53 ∧
    (run decimalBuiltins sampleKB saturatedState [Event.start 1]).1.statistics.start_command_count
      ≠ saturatedState.statistics.start_command_count + countStarts [Event.start 1] := by
  decide

/-- C5 (amended): usage counters are a function of the event trace as long as
the counter stays in the range where `+= 1` is exact.  When the loaded
`start_command_count` plus the number of `/start` messages does not exceed
`2 ^ 53`, the counter afterwards is the loaded value plus that number,
`article_views` is unchanged and the statistics file was written once per
`/start`; each `/start` writes exactly the statistics it has just
incremented, and a callback query changes no statistics and writes nothing. -/
theorem usage_counters (js : JSBuiltins) (kb : KnowledgeBase) (st : BotState)
    (evs : List Event) (h : st.statistics.start_command_count + countStarts evs ≤ 2 ^ 53) :
    (run js kb st evs).1.statistics.start_command_count
      = st.statistics.start_command_count + countStarts evs ∧
    (run js kb st evs).1.statistics.article_views = st.statistics.article_views ∧
    ((run js kb st evs).2.filter Effect.isWrite).length = countStarts evs ∧
    (∀ st1 c, (step js kb st1 (Event.start c)).2.filter Effect.isWrite
      = [Effect.writeStatistics (step js kb st1 (Event.start c)).1.statistics]) ∧
    (∀ st1 q, (step js kb st1 (Event.callbackQuery q)).1.statistics = st1.statistics ∧
      (step js kb st1 (Event.callbackQuery q)).2.filter Effect.isWrite = []) := by
  refine ⟨?_, ?_, ?_, step_start_writes js kb, fun st1 q =>
    ⟨by rw [step_callbackQuery_state], step_callbackQuery_no_write js kb st1 q⟩⟩
  · induction evs generalizing st with
    | nil => simp [run, countStarts]
    | cons ev evs ih =>
      cases ev with
      | start c =>
        simp only [countStarts] at h
        have hx : st.statistics.start_command_count < 2 ^ 53 := by omega
        have h1 : (step js kb st (Event.start c)).1.statistics.start_command_count
            = st.statistics.start_command_count + 1 := by
          simp [step, onStart, jsAddOne_exact _ hx]
        simp only [run, countStarts]
        rw [ih _ (by rw [h1]; omega), h1]
        omega
      | callbackQuery q =>
        simp only [countStarts] at h
        simp only [run, countStarts]
        rw [ih _ (by rw [step_callbackQuery_state]; exact h), step_callbackQuery_state]
      | sendResolved c r =>
        simp only [countStarts] at h
        simp only [run, countStarts]
        rw [ih _ (by simpa [step, onSendResolved_statistics] using h)]
        simp [step, onSendResolved_statistics]
  · clear h
    induction evs generalizing st with
    | nil => simp [run]
    | cons ev evs ih =>
      simp only [run]
      rw [ih]
      cases ev with
      | start c => simp [step, onStart]
      | callbackQuery q => rw [step_callbackQuery_state]
      | sendResolved c r => simp [step, onSendResolved_statistics]
  · clear h
    induction evs generalizing st with
    | nil => simp [run, countStarts]
    | cons ev evs ih =>
      simp only [run, List.filter_append, List.length_append]
      rw [ih]
      cases ev with
      | start c => rw [step_start_writes]; simp [countStarts]; omega
      | callbackQuery q => rw [step_callbackQuery_no_write]; simp [countStarts]
      | sendResolved c r => simp [step, countStarts]

/-- Witness of C5 (amended): two `/start` messages and a button press from the
initial state. -/
theorem usage_counters_witness :
    (run decimalBuiltins sampleKB initialState
        [Event.start 1, Event.callbackQuery ⟨"q", 1, "subtopic_0_0_0"⟩,
         Event.start 2]).1.statistics.start_command_count
      = initialState.statistics.start_command_count + 2 :=
  (usage_counters decimalBuiltins sampleKB initialState
    [Event.start 1, Event.callbackQuery ⟨"q", 1, "subtopic_0_0_0"⟩, Event.start 2]
    (by decide)).1

/-! ## Navigation in place -/

theorem settle_nil (st : BotState) (result : Option Int) : settle st [] result = st := rfl

theorem settle_send (st : BotState) (c : ChatId) (text : String) (options : Options)
    (result : Option Int) :
    settle st [Effect.sendMessage c text options true] result = onSendResolved st c result := rfl

theorem settle_edit (st : BotState) (c : ChatId) (text : String) (m : Int)
    (rm : Option ReplyMarkup) (result : Option Int) :
    settle st [Effect.editMessageText text c m rm] result = st := rfl

/-- A button press in a chat whose stored message id is the non-zero `m`: the
state of that chat is untouched, nothing is sent to it and every edit in it
targets `m`. -/
theorem press_tracked (js : JSBuiltins) (kb : KnowledgeBase) (hkb : kb.sections ≠ [])
    (st : BotState) (c : ChatId) (m : Int) (hst : storedMessageId st.userStates c = some m)
    (hm : m ≠ 0) (p : Press) :
    (stepSettled js kb st (Event.callbackQuery p.query) p.result).1.userStates c
      = st.userStates c ∧
    ∀ e ∈ (stepSettled js kb st (Event.callbackQuery p.query) p.result).2,
      e.isSendTo c = false ∧ (e.isEditIn c = true → e.isEditOf c m = true) := by
  simp only [stepSettled, step]
  rcases onCallbackQuery_cases js kb st.userStates p.query with
    h1 | ⟨text, o, h1⟩ | ⟨_, h1⟩ | ⟨h0, _⟩
  · simp [h1, settle_nil]
  · rcases sendOrEditMessage_cases st.userStates p.query.chatId text o with
      ⟨m1, hs1, _, h2⟩ | ⟨hs1, h2⟩
    · simp only [h1, h2, settle_edit, List.mem_singleton, forall_eq, true_and]
      refine ⟨rfl, ?_⟩
      intro hc
      simp only [Effect.isEditIn, decide_eq_true_eq] at hc
      rw [hc, hst] at hs1
      simp only [Option.some.injEq] at hs1
      simp [Effect.isEditOf, hc, hs1]
    · have hne : p.query.chatId ≠ c := by
        intro e
        rw [e, hst] at hs1
        rcases hs1 with hs1 | hs1
        · cases hs1
        · exact hm (Option.some.inj hs1)
      simp only [h1, h2, settle_send, List.mem_singleton, forall_eq]
      exact ⟨onSendResolved_other st _ c _ hne, by simp [Effect.isSendTo, hne],
        by simp [Effect.isEditIn]⟩
  · simp only [h1, List.mem_singleton, forall_eq]
    exact ⟨rfl, rfl, by simp [Effect.isEditIn]⟩
  · exact absurd h0 hkb

theorem run_tracked (js : JSBuiltins) (kb : KnowledgeBase) (hkb : kb.sections ≠ [])
    (c : ChatId) (m : Int) (hm : m ≠ 0) (ps : List Press) :
    ∀ st : BotState, storedMessageId st.userStates c = some m →
      (runPresses js kb st ps).1.userStates c = st.userStates c ∧
      ∀ e ∈ (runPresses js kb st ps).2,
        e.isSendTo c = false ∧ (e.isEditIn c = true → e.isEditOf c m = true) := by
  induction ps with
  | nil => intro st _; simp [runPresses]
  | cons p ps ih =>
    intro st hst
    obtain ⟨h1, h2⟩ := press_tracked js kb hkb st c m hst hm p
    have hst1 : storedMessageId
        (stepSettled js kb st (Event.callbackQuery p.query) p.result).1.userStates c
          = some m := by
      simpa [storedMessageId, h1] using hst
    obtain ⟨h3, h4⟩ := ih _ hst1
    simp only [runPresses]
    refine ⟨by rw [h3, h1], ?_⟩
    intro e he
    rcases List.mem_append.1 he with he | he
    · exact h2 e he
    · exact h4 e he

theorem start_settled (js : JSBuiltins) (kb : KnowledgeBase) (hkb : kb.sections ≠ [])
    (st : BotState) (c : ChatId) (m : Int) :
    (stepSettled js kb st (Event.start c) (some m)).1.userStates c
      = some { level := "main", data := none, messageId := some m } := by
  have hs : storedMessageId (setUserState st.userStates c freshUserState) c = none := by
    simp [storedMessageId, setUserState, freshUserState]
  have hsend : sendOrEditMessage (setUserState st.userStates c freshUserState) c
      "📎Выберите необходимый раздел:" (Options.keyboard (sectionButtons kb.sections))
      = [Effect.sendMessage c "📎Выберите необходимый раздел:"
          (Options.keyboard (sectionButtons kb.sections)) true] := by
    simp [sendOrEditMessage, hs]
  simp only [stepSettled, step, onStart, sendMainMenu_eq kb _ c hkb, hsend]
  simp [settle, onSendResolved, setUserState, freshUserState]

/-- C4: the menu message id is tracked per chat after `/start`.  With a
non-empty knowledge base, once `/start` has been handled for `c` and its menu
message has been delivered with a non-zero id `m`, `userStates[c]` is
`{level: 'main', data: null, messageId: m}` and stays so across every sequence
of button presses (any data, any chat, every send settled before the next
press, whatever its outcome); during that sequence nothing is sent to `c` and
every `editMessageText` in `c` targets message `m`. -/
theorem menu_message_id_tracked (js : JSBuiltins) (kb : KnowledgeBase)
    (hkb : kb.sections ≠ []) (st : BotState) (c : ChatId) (m : Int) (hm : m ≠ 0)
    (ps : List Press) :
    (stepSettled js kb st (Event.start c) (some m)).1.userStates c
      = some { level := "main", data := none, messageId := some m } ∧
    (runPresses js kb (stepSettled js kb st (Event.start c) (some m)).1 ps).1.userStates c
      = some { level := "main", data := none, messageId := some m } ∧
    ∀ e ∈ (runPresses js kb (stepSettled js kb st (Event.start c) (some m)).1 ps).2,
      e.isSendTo c = false ∧ (e.isEditIn c = true → e.isEditOf c m = true) := by
  have h0 := start_settled js kb hkb st c m
  have hst : storedMessageId (stepSettled js kb st (Event.start c) (some m)).1.userStates c
      = some m := by
    simp [storedMessageId, h0]
  obtain ⟨h1, h2⟩ := run_tracked js kb hkb c m hm ps _ hst
  exact ⟨h0, by rw [h1, h0], h2⟩

/-- Witness of C4: `/start` in chat 1 delivered as message 10, then presses in
chats 1 and 2. -/
theorem menu_message_id_tracked_witness :
    (stepSettled decimalBuiltins sampleKB initialState (Event.start 1) (some 10)).1.userStates 1
      = some { level := "main", data := none, messageId := some 10 } ∧
    (runPresses decimalBuiltins sampleKB
        (stepSettled decimalBuiltins sampleKB initialState (Event.start 1) (some 10)).1
        [⟨⟨"a", 1, "section_0"⟩, some 11⟩, ⟨⟨"b", 2, "topic_0_0"⟩, some 12⟩,
         ⟨⟨"c", 1, "subtopic_7_7_7"⟩, none⟩]).1.userStates 1
      = some { level := "main", data := none, messageId := some 10 } ∧
    ∀ e ∈ (runPresses decimalBuiltins sampleKB
        (stepSettled decimalBuiltins sampleKB initialState (Event.start 1) (some 10)).1
        [⟨⟨"a", 1, "section_0"⟩, some 11⟩, ⟨⟨"b", 2, "topic_0_0"⟩, some 12⟩,
         ⟨⟨"c", 1, "subtopic_7_7_7"⟩, none⟩]).2,
      e.isSendTo 1 = false ∧ (e.isEditIn 1 = true → e.isEditOf 1 10 = true) :=
  menu_message_id_tracked decimalBuiltins sampleKB (by decide) initialState 1 10 (by decide) _

/-- A button press, seen from chat `c`: either nothing is sent to `c` and the
state of `c` is untouched, or the press belongs to `c`, its single call is the
id-recording `sendMessage` to `c`, and the state is the one after settling it. -/
theorem press_cases (js : JSBuiltins) (kb : KnowledgeBase) (hkb : kb.sections ≠ [])
    (st : BotState) (c : ChatId) (p : Press) :
    ((stepSettled js kb st (Event.callbackQuery p.query) p.result).1.userStates c
        = st.userStates c ∧
      ∀ e ∈ (stepSettled js kb st (Event.callbackQuery p.query) p.result).2,
        e.isSendTo c = false) ∨
    (p.query.chatId = c ∧
      (∃ text options, (stepSettled js kb st (Event.callbackQuery p.query) p.result).2
        = [Effect.sendMessage c text options true]) ∧
      (stepSettled js kb st (Event.callbackQuery p.query) p.result).1
        = onSendResolved st c p.result) := by
  simp only [stepSettled, step]
  rcases onCallbackQuery_cases js kb st.userStates p.query with
    h1 | ⟨text, o, h1⟩ | ⟨_, h1⟩ | ⟨h0, _⟩
  · left; simp [h1, settle_nil]
  · rcases sendOrEditMessage_cases st.userStates p.query.chatId text o with
      ⟨m1, _, _, h2⟩ | ⟨_, h2⟩
    · left
      simp only [h1, h2, settle_edit, List.mem_singleton, forall_eq, true_and]
      rfl
    · by_cases hc : p.query.chatId = c
      · right
        simp only [h1, h2, settle_send]
        rw [hc]
        exact ⟨rfl, ⟨text, o, rfl⟩, rfl⟩
      · left
        simp only [h1, h2, settle_send, List.mem_singleton, forall_eq]
        exact ⟨onSendResolved_other st _ c _ hc, by simp [Effect.isSendTo, hc]⟩
  · left
    simp only [h1, List.mem_singleton, forall_eq]
    exact ⟨rfl, rfl⟩
  · exact absurd h0 hkb

theorem filter_isSendTo_nil (c : ChatId) (l : List Effect)
    (h : ∀ e ∈ l, e.isSendTo c = false) : l.filter (Effect.isSendTo c) = [] := by
  rw [List.filter_eq_nil_iff]
  intro e he
  simp [h e he]

theorem onSendResolved_stored (st : BotState) (c : ChatId) (u : UserState) (m : Int)
    (h : st.userStates c = some u) :
    storedMessageId (onSendResolved st c (some m)).userStates c = some m := by
  simp [onSendResolved, h, storedMessageId, setUserState]

theorem run_existing (js : JSBuiltins) (kb : KnowledgeBase) (hkb : kb.sections ≠ [])
    (c : ChatId) (ps : List Press) :
    ∀ st : BotState, (∃ u, st.userStates c = some u) →
      (∀ p ∈ ps, p.query.chatId = c → ∃ m, p.result = some m ∧ m ≠ 0) →
      ((runPresses js kb st ps).2.filter (Effect.isSendTo c)).length ≤ 1 ∧
      ∀ pre post, ps = pre ++ post →
        (∃ e ∈ (runPresses js kb st pre).2, e.isSendTo c = true) →
        ∃ m, m ≠ 0 ∧ (∃ p ∈ pre, p.query.chatId = c ∧ p.result = some m) ∧
          storedMessageId (runPresses js kb st pre).1.userStates c = some m ∧
          ∀ e ∈ (runPresses js kb (runPresses js kb st pre).1 post).2,
            e.isSendTo c = false ∧ (e.isEditIn c = true → e.isEditOf c m = true) := by
  induction ps with
  | nil =>
    intro st _ _
    refine ⟨by simp [runPresses], ?_⟩
    intro pre post hpp hex
    obtain ⟨rfl, _⟩ := List.append_eq_nil.1 hpp.symm
    simp [runPresses] at hex
  | cons p ps ih =>
    intro st hst hres
    have hres1 : ∀ q ∈ ps, q.query.chatId = c → ∃ m, q.result = some m ∧ m ≠ 0 :=
      fun q hq => hres q (List.mem_cons_of_mem _ hq)
    rcases press_cases js kb hkb st c p with ⟨hsame, hnosend⟩ | ⟨hpc, ⟨text, o, heff⟩, hstate⟩
    · have hst1 : ∃ u,
          (stepSettled js kb st (Event.callbackQuery p.query) p.result).1.userStates c
            = some u := by
        rw [hsame]; exact hst
      obtain ⟨ih1, ih2⟩ := ih _ hst1 hres1
      constructor
      · simp only [runPresses, List.filter_append, List.length_append,
          filter_isSendTo_nil c _ hnosend, List.length_nil, Nat.zero_add]
        exact ih1
      · intro pre post hpp hex
        cases pre with
        | nil => simp [runPresses] at hex
        | cons p1 pre1 =>
          simp only [List.cons_append, List.cons.injEq] at hpp
          obtain ⟨rfl, hpp1⟩ := hpp
          simp only [runPresses] at hex ⊢
          obtain ⟨e, he, hsend⟩ := hex
          rcases List.mem_append.1 he with he | he
          · rw [hnosend e he] at hsend; cases hsend
          · obtain ⟨m, hm, ⟨q, hq, hqc, hqr⟩, hstored, hlater⟩ :=
              ih2 pre1 post hpp1 ⟨e, he, hsend⟩
            exact ⟨m, hm, ⟨q, List.mem_cons_of_mem _ hq, hqc, hqr⟩, hstored, hlater⟩
    · obtain ⟨m, hpm, hm⟩ := hres p (List.mem_cons_self _ _) hpc
      obtain ⟨u, hu⟩ := hst
      have hstored : storedMessageId
          (stepSettled js kb st (Event.callbackQuery p.query) p.result).1.userStates c
            = some m := by
        rw [hstate, hpm]; exact onSendResolved_stored st c u m hu
      constructor
      · obtain ⟨_, hrest⟩ := run_tracked js kb hkb c m hm ps _ hstored
        simp only [runPresses, List.filter_append, List.length_append,
          filter_isSendTo_nil c _ (fun e he => (hrest e he).1), heff]
        simp [List.filter, Effect.isSendTo]
      · intro pre post hpp _
        cases pre with
        | nil =>
          rename_i hex
          simp [runPresses] at hex
        | cons p1 pre1 =>
          simp only [List.cons_append, List.cons.injEq] at hpp
          obtain ⟨rfl, _⟩ := hpp
          obtain ⟨hkeep, _⟩ := run_tracked js kb hkb c m hm pre1 _ hstored
          have hstored1 : storedMessageId
              (runPresses js kb st (p :: pre1)).1.userStates c = some m := by
            simp only [runPresses]
            simpa [storedMessageId, hkeep] using hstored
          exact ⟨m, hm, ⟨p, List.mem_cons_self _ _, hpc, hpm⟩, hstored1,
            (run_tracked js kb hkb c m hm post _ hstored1).2⟩

theorem runPresses_append (js : JSBuiltins) (kb : KnowledgeBase) (pre post : List Press) :
    ∀ st : BotState,
      runPresses js kb st (pre ++ post)
        = ((runPresses js kb (runPresses js kb st pre).1 post).1,
           (runPresses js kb st pre).2 ++ (runPresses js kb (runPresses js kb st pre).1 post).2) := by
  induction pre with
  | nil => intro st; simp [runPresses]
  | cons p pre ih => intro st; simp [runPresses, ih]

/-- C3 (counterexample): after `/start` in chat 1, two presses of `section_0`
that arrive before the menu message has been delivered are both answered with
a new `sendMessage`. -/
theorem navigation_sends_again :
    ((run decimalBuiltins sampleKB (step decimalBuiltins sampleKB initialState (Event.start 1)).1
        [Event.callbackQuery ⟨"a", 1, "section_0"⟩,
         Event.callbackQuery ⟨"b", 1, "section_0"⟩]).2.filter (Effect.isSendTo 1)).length = 2 := by
  decide

/-- C3 (amended): navigation edits a single message in place once the chat
has a state and deliveries keep up.  With a non-empty knowledge base, a chat
`c` whose state exists (set by `/start`), and a sequence of button presses in
which every send is settled before the next press and every send to `c`
succeeds with a non-zero id: the presses send at most one message to `c`, and
once one has been sent its id `m` is stored and every later call in `c` is an
`editMessageText` of message `m`, never a `sendMessage`. -/
theorem navigation_in_place (js : JSBuiltins) (kb : KnowledgeBase) (hkb : kb.sections ≠ [])
    (c : ChatId) (st : BotState) (u : UserState) (hst : st.userStates c = some u)
    (ps : List Press)
    (hres : ∀ p ∈ ps, p.query.chatId = c → ∃ m, p.result = some m ∧ m ≠ 0) :
    ((runPresses js kb st ps).2.filter (Effect.isSendTo c)).length ≤ 1 ∧
    ∀ pre post, ps = pre ++ post →
      (∃ e ∈ (runPresses js kb st pre).2, e.isSendTo c = true) →
      ∃ m, m ≠ 0 ∧ (∃ p ∈ pre, p.query.chatId = c ∧ p.result = some m) ∧
        storedMessageId (runPresses js kb st pre).1.userStates c = some m ∧
        ∀ e ∈ (runPresses js kb (runPresses js kb st pre).1 post).2,
          e.isSendTo c = false ∧ (e.isEditIn c = true → e.isEditOf c m = true) :=
  run_existing js kb hkb c ps st ⟨u, hst⟩ hres

/-- Witness of C3 (amended): after `/start` in chat 1 whose menu send failed,
three presses settle with ids 10, 11, 12; only the first sends. -/
theorem navigation_in_place_witness :
    ((runPresses decimalBuiltins sampleKB
        (stepSettled decimalBuiltins sampleKB initialState (Event.start 1) none).1
        [⟨⟨"a", 1, "section_0"⟩, some 10⟩, ⟨⟨"b", 1, "topic_0_0"⟩, some 11⟩,
         ⟨⟨"c", 1, "back_main"⟩, some 12⟩]).2.filter (Effect.isSendTo 1)).length ≤ 1 :=
  (navigation_in_place decimalBuiltins sampleKB (by decide) 1
    (stepSettled decimalBuiltins sampleKB initialState (Event.start 1) none).1
    freshUserState (by decide)
    [⟨⟨"a", 1, "section_0"⟩, some 10⟩, ⟨⟨"b", 1, "topic_0_0"⟩, some 11⟩,
     ⟨⟨"c", 1, "back_main"⟩, some 12⟩]
    (by decide)).1

end BotRenovatio
